import Mathlib

/-!
Verification development for the weewx WeatherFlow UDP driver
(`bin/user/weatherflowudp.py`).  The Python functions relevant to the
specification's claims are embedded shallowly below: dictionaries become
insertion-ordered association lists, JSON scalars become an inductive value
type over `ℚ`, and wall-clock reads become explicit `now` parameters.
Statements about the driver follow the definitions.
-/

namespace Weatherflow

/-- JSON-like value stored in the driver's packet dictionaries.  Numbers are
modelled by `ℚ` (the driver only adds, multiplies and compares them). -/
inductive Val where
  | none : Val
  | num : ℚ → Val
  | str : String → Val
  | arr : List Val → Val
deriving Repr

mutual

def Val.decEq : (a b : Val) → Decidable (a = b)
  | .none, .none => isTrue rfl
  | .num a, .num b => decidable_of_iff (a = b) (by simp)
  | .str a, .str b => decidable_of_iff (a = b) (by simp)
  | .arr a, .arr b =>
      match Val.decEqList a b with
      | isTrue h => isTrue (by rw [h])
      | isFalse h => isFalse (by intro hh; injection hh; contradiction)
  | .none, .num _ => isFalse (by intro hh; exact Val.noConfusion hh)
  | .none, .str _ => isFalse (by intro hh; exact Val.noConfusion hh)
  | .none, .arr _ => isFalse (by intro hh; exact Val.noConfusion hh)
  | .num _, .none => isFalse (by intro hh; exact Val.noConfusion hh)
  | .num _, .str _ => isFalse (by intro hh; exact Val.noConfusion hh)
  | .num _, .arr _ => isFalse (by intro hh; exact Val.noConfusion hh)
  | .str _, .none => isFalse (by intro hh; exact Val.noConfusion hh)
  | .str _, .num _ => isFalse (by intro hh; exact Val.noConfusion hh)
  | .str _, .arr _ => isFalse (by intro hh; exact Val.noConfusion hh)
  | .arr _, .none => isFalse (by intro hh; exact Val.noConfusion hh)
  | .arr _, .num _ => isFalse (by intro hh; exact Val.noConfusion hh)
  | .arr _, .str _ => isFalse (by intro hh; exact Val.noConfusion hh)

def Val.decEqList : (a b : List Val) → Decidable (a = b)
  | [], [] => isTrue rfl
  | [], _ :: _ => isFalse (by intro hh; exact List.noConfusion hh)
  | _ :: _, [] => isFalse (by intro hh; exact List.noConfusion hh)
  | x :: xs, y :: ys =>
      match Val.decEq x y, Val.decEqList xs ys with
      | isTrue h₁, isTrue h₂ => isTrue (by rw [h₁, h₂])
      | isFalse h₁, _ => isFalse (by intro hh; injection hh; contradiction)
      | isTrue _, isFalse h₂ => isFalse (by intro hh; injection hh; contradiction)

end

instance : DecidableEq Val := Val.decEq

/-- Python `dict` with CPython 3.7+ semantics: iteration follows insertion
order, updating an existing key keeps its position. -/
abbrev Dict := List (String × Val)

/-- `d[k]` as an `Option` (`none` when the key is absent). -/
def pyGet (d : Dict) (k : String) : Option Val :=
  match d with
  | [] => Option.none
  | (k₂, v) :: t => if k₂ = k then some v else pyGet t k

/-- `d[k] = v`: update in place if `k` exists, else append. -/
def pyInsert (d : Dict) (k : String) (v : Val) : Dict :=
  match d with
  | [] => [(k, v)]
  | (k₂, v₂) :: t => if k₂ = k then (k, v) :: t else (k₂, v₂) :: pyInsert t k v

/-- `k in d`. -/
def pyContains (d : Dict) (k : String) : Bool := (pyGet d k).isSome

/-- The keys of a dict, in insertion order. -/
def pyKeys (d : Dict) : List String := d.map Prod.fst

/-- Python `hay.find(pat) > -1`: substring test. -/
def pyFindSub (hay pat : String) : Bool := decide (pat.data <:+: hay.data)

/-- `s.replace(old, new)` for the one-character replacements the driver
performs (`"-"` to `"_"`). -/
def pyReplace (s : String) (old new : Char) : String :=
  ⟨s.data.map (fun c => if c = old then new else c)⟩

/-- `s.endswith(suffix)`. -/
def pyEndsWith (s suffix : String) : Bool := decide (suffix.data <:+ s.data)

/-- Python truthiness of a value (`bool(v)`). -/
def valTruthy (v : Val) : Bool :=
  match v with
  | .none => false
  | .num q => q ≠ 0
  | .str s => s ≠ ""
  | .arr l => !l.isEmpty

/-! ## Observation record field schemas (`fields` dict, lines 268-274) -/

def fieldsObsAir : List String :=
  ["time_epoch", "station_pressure", "air_temperature", "relative_humidity",
   "lightning_strike_count", "lightning_strike_avg_distance", "battery",
   "report_interval"]

def fieldsObsSky : List String :=
  ["time_epoch", "illuminance", "uv", "rain_accumulated", "wind_lull",
   "wind_avg", "wind_gust", "wind_direction", "battery", "report_interval",
   "solar_radiation", "local_day_rain_accumulation", "precipitation_type",
   "wind_sample_interval"]

def fieldsRapidWind : List String := ["time_epoch", "wind_speed", "wind_direction"]

def fieldsEvtPrecip : List String := ["time_epoch"]

def fieldsEvtStrike : List String := ["time_epoch", "distance", "energy"]

def fieldsObsSt : List String :=
  ["time_epoch", "wind_lull", "wind_avg", "wind_gust", "wind_direction",
   "wind_sample_interval", "station_pressure", "air_temperature",
   "relative_humidity", "illuminance", "uv", "solar_radiation",
   "rain_accumulated", "precipitation_type", "lightning_strike_avg_distance",
   "lightning_strike_count", "battery", "report_interval"]

/-- `fields[t]` (only ever read for the known packet types). -/
def fieldsFor (t : String) : List String :=
  if t = "obs_air" then fieldsObsAir
  else if t = "obs_sky" then fieldsObsSky
  else if t = "rapid_wind" then fieldsRapidWind
  else if t = "evt_precip" then fieldsEvtPrecip
  else if t = "evt_strike" then fieldsEvtStrike
  else if t = "obs_st" then fieldsObsSt
  else []

/-! ## `BatteryModeCalculator` (lines 970-1010)

The `_list` attribute is the state.  `addVoltage` takes the raw `Val` fed by
the decoder; Python's `if not value: return` skips every falsy value
(`None` and `0`).  A truthy non-number would be appended by Python and later
crash `sum`; such inputs never occur in a battery slot and are ignored here. -/

def addVoltage (l : List ℚ) (v : Val) : List ℚ :=
  if !valTruthy v then l
  else
    match v with
    | .num q =>
        let l₂ := l ++ [q]
        if l₂.length > 10 then l₂.tail else l₂
    | _ => l

/-- View an optional voltage reading as the `Val` the decoder feeds to
`addVoltage` (JSON `null` or a number). -/
def toVal (o : Option ℚ) : Val :=
  match o with
  | Option.none => Val.none
  | some q => Val.num q

/-- `self._list[0:5]` and `self._list[5:10]` sums compared with the 0.05
hysteresis margin (`__isCharging`). -/
def isCharging (l : List ℚ) : Bool :=
  if l.length = 10 then
    let firstValue := (l.take 5).sum
    let secondValue := ((l.drop 5).take 5).sum
    secondValue - firstValue > 0.05
  else false

/-- `l[-5:]`: the last `n` elements of a list. -/
def lastN (n : ℕ) (l : List ℚ) : List ℚ := l.drop (l.length - n)

/-- Mean of the five most recent samples (`currentValue` in `getMode`). -/
def currentValue (l : List ℚ) : ℚ := (lastN 5 l).sum / ((lastN 5 l).length : ℚ)

/-- `getMode` (lines 989-1010). -/
def getMode (l : List ℚ) : Option ℕ :=
  if l.length = 0 then Option.none
  else some <|
    if isCharging l then
      if currentValue l ≥ 2.455 then 0
      else if currentValue l ≥ 2.41 then 1
      else if currentValue l ≥ 2.375 then 2
      else 3
    else
      if currentValue l ≤ 2.355 then 3
      else if currentValue l ≤ 2.39 then 2
      else if currentValue l ≤ 2.415 then 1
      else 0

/-! ## `ArchivePeriod` (lines 936-968)

Only the timestamp fields are modelled; the accumulator the class carries is
external weewx code and plays no role in the window-timestamp claims.  The
wall clock is passed explicitly: `now` stands for `int(time.time())`, so for
an integer `e` the source comparison `e > time.time()` is `e > now`. -/

structure ArchivePeriod where
  start_ts : ℤ
  interval : ℤ
  delay : ℤ
  end_ts : ℤ
  end_delay_ts : ℤ
deriving DecidableEq, Repr

/-- `ArchivePeriod.__init__` (lines 937-946): the end of the fresh window is
clipped to `now` when it would lie in the future. -/
def ArchivePeriod.init (start interval delay now : ℤ) : ArchivePeriod :=
  let e₀ := start + interval
  let e := if e₀ > now then now else e₀
  { start_ts := start, interval := interval, delay := delay,
    end_ts := e, end_delay_ts := e + delay }

/-- `startNextArchiveInterval` (lines 948-956).  The clipping branch in the
source assigns the misspelled local name `self_end_archive_period_ts`
(missing dot) instead of the attribute `self._end_archive_period_ts`, so the
attribute keeps the unclipped value `start + interval` and the wall clock is
never consulted effectively. -/
def ArchivePeriod.startNextArchiveInterval (p : ArchivePeriod) (start _now : ℤ) :
    ArchivePeriod :=
  let e := start + p.interval
  { p with start_ts := start, end_ts := e, end_delay_ts := e + p.delay }

/-! ## `readDataFromWF` (lines 447-528)

One batch of the REST fetch loop is modelled as a pure function.  A device's
HTTP responses are abstracted to a function from the fetch attempt index to
the JSON `obs` payload (`Option.none` models JSON `null`); the dependence of
a response on the query window `[start, lastTimestamp or end]` is folded
into that abstraction.  Transport-level failures (connection errors, non-200
statuses) raise other exception types in the source and are outside the
claims, so the abstraction only covers delivered 200 responses. -/

instance {ε α : Type} [DecidableEq ε] [DecidableEq α] : DecidableEq (Except ε α) :=
  fun a b =>
    match a, b with
    | .error e₁, .error e₂ => decidable_of_iff (e₁ = e₂) (by simp)
    | .ok v₁, .ok v₂ => decidable_of_iff (v₁ = v₂) (by simp)
    | .error _, .ok _ => isFalse (fun h => Except.noConfusion h)
    | .ok _, .error _ => isFalse (fun h => Except.noConfusion h)

/-- A Python exception relevant to the embedded code paths. -/
inductive PyErr where
  | typeError : PyErr
  | keyError : PyErr
  | indexError : PyErr
  | incompleteData : PyErr
deriving DecidableEq, Repr

/-- One REST observation row; `row[0]` is the epoch timestamp. -/
abbrev Row := List ℚ

/-- `row[0]` (rows delivered by the API are never empty). -/
def rowTs (r : Row) : ℚ := r.headD 0

/-- A configured device as seen by one batch of `readDataFromWF`. -/
structure WFDevice where
  dtype : Option String
  responses : ℕ → Option (List Row)
  device_id : ℕ
  rtype : String

/-- Stable insertion into a sorted list (used to model Python's stable
`sorted`). -/
def insertSorted {α : Type} (le : α → α → Bool) (x : α) : List α → List α
  | [] => [x]
  | y :: ys => if le x y then x :: y :: ys else y :: insertSorted le x ys

/-- Stable sort by the given boolean order (Python `sorted`). -/
def sortBy {α : Type} (le : α → α → Bool) : List α → List α
  | [] => []
  | x :: xs => insertSorted le x (sortBy le xs)

/-- `sorted(obs, key=lambda x: x[0])`. -/
def sortedAsc (rows : List Row) : List Row :=
  sortBy (fun a b => rowTs a ≤ rowTs b) rows

/-- `sorted(obs, key=lambda i: i[0], reverse=True)`. -/
def sortedDesc (rows : List Row) : List Row :=
  sortBy (fun a b => rowTs b ≤ rowTs a) rows

/-- The recursion of `retryLoop`, made structural on the number of rounds
still allowed (`maxRetry + 1 - retry`): fuel `0` is exactly the
`retry > max_retry_count` exit raising the per-device incomplete-data
error. -/
def retryGo (resp : ℕ → Option (List Row)) (minExp : ℕ) :
    ℕ → ℕ → Except Unit (Option (List Row))
  | 0, _ => .error ()
  | fuel + 1, retry =>
      let obs := resp retry
      if (obs.getD []).length < minExp then retryGo resp minExp fuel (retry + 1)
      else .ok obs

/-- The per-device completeness retry loop (lines 459-491): at most one
request per retry round, raising the per-device incomplete-data error once
`retry` passes `max_retry_count`.  The first round always issues a request
(`observation_count is None`). -/
def retryLoop (resp : ℕ → Option (List Row)) (minExp maxRetry retry : ℕ) :
    Except Unit (Option (List Row)) :=
  retryGo resp minExp (maxRetry + 1 - retry) retry

/-- `result['obs'] = dict(zip(newTimestamps, observations))`: timestamp-keyed
dict, modelled with Python dict insertion semantics. -/
def qInsert (d : List (ℚ × Row)) (k : ℚ) (v : Row) : List (ℚ × Row) :=
  match d with
  | [] => [(k, v)]
  | (k₂, v₂) :: t => if k₂ = k then (k, v) :: t else (k₂, v₂) :: qInsert t k v

/-- Lookup in the timestamp-keyed dict. -/
def qGet (d : List (ℚ × Row)) (k : ℚ) : Option Row :=
  match d with
  | [] => Option.none
  | (k₂, v) :: t => if k₂ = k then some v else qGet t k

/-- One entry of the `results` list (lines 495-503). -/
structure DevResult where
  device_id : ℕ
  rtype : String
  obs : List (ℚ × Row)
deriving DecidableEq, Repr

/-- The loop state over the devices of one batch. -/
structure BatchState where
  results : List DevResult
  lastTimestamp : Option ℚ
  timestamps : Option (List ℚ)
deriving DecidableEq, Repr

/-- The merged result yielded for one batch (lines 511-522). -/
structure CombinedBatch where
  device_ids : List ℕ
  types : List String
  obs : List (List (Option Row))
deriving DecidableEq, Repr

/-- Line 500:
`timestamps = timestamps or (timestamps or list()) + list(set(newTimestamps) - set(timestamps or list()))`.
`list(set(...))` enumerates in unspecified order; the value is consumed only
through `sorted(...)`, so the model fixes first-occurrence order (`dedup`).
Note the leading `timestamps or …`: as soon as `timestamps` is a non-empty
list it is returned unchanged and the union expression after `or` is dead. -/
def updTimestamps (old : Option (List ℚ)) (new : List ℚ) : List ℚ :=
  let oldL := old.getD []
  if !oldL.isEmpty then oldL
  else oldL ++ (new.dedup.filter (fun t => !oldL.contains t))

/-- `device_type_dict[device] in ['HB', None]` (line 457): the device is
skipped by `continue`. -/
def deviceSkipped (d : WFDevice) : Bool :=
  d.dtype = some "HB" || d.dtype = Option.none

/-- The body of `for device in devices:` (lines 455-505) for one device.
A per-device `IncompleteDataException` is caught (line 504) and the device
contributes nothing.  `sorted(obs, reverse=True)[0]` on an empty non-null
`obs` would raise `IndexError` in the source, which the `except` clause does
not catch. -/
def deviceStep (minExp maxRetry : ℕ) (st : BatchState) (d : WFDevice) :
    Except PyErr BatchState :=
  if deviceSkipped d then .ok st
  else
    match retryLoop d.responses minExp maxRetry 0 with
    | .error _ => .ok st
    | .ok obs =>
      let ltE : Except PyErr (Option ℚ) :=
        match st.lastTimestamp, obs with
        | Option.none, some rows =>
            match (sortedDesc rows).head? with
            | Option.none => .error .indexError
            | some top => .ok (some (rowTs top))
        | lt, _ => .ok lt
      match ltE with
      | .error e => .error e
      | .ok lt =>
        let obsRows := sortedAsc (obs.getD [])
        let newTs := obsRows.map rowTs
        let ts₂ := updTimestamps st.timestamps newTs
        let resObs := obsRows.foldl (fun acc r => qInsert acc (rowTs r) r) []
        .ok { results := st.results ++
                [{ device_id := d.device_id, rtype := d.rtype, obs := resObs }],
              lastTimestamp := lt, timestamps := some ts₂ }

/-- The whole device loop of one batch. -/
def processDevices (minExp maxRetry : ℕ) : List WFDevice → BatchState → Except PyErr BatchState
  | [], st => .ok st
  | d :: ds, st =>
      match deviceStep minExp maxRetry st d with
      | .error e => .error e
      | .ok st₂ => processDevices minExp maxRetry ds st₂

/-- One whole batch (lines 450-524): run the device loop, raise
`IncompleteDataException` to the caller when `results` is empty, otherwise
build the combined result.  Returns the combined batch together with the
batch's `lastTimestamp`. -/
def runBatch (minExp maxRetry : ℕ) (devices : List WFDevice) :
    Except PyErr (CombinedBatch × Option ℚ) :=
  match processDevices minExp maxRetry devices
      { results := [], lastTimestamp := Option.none, timestamps := Option.none } with
  | .error e => .error e
  | .ok st =>
    if st.results.length = 0 then .error .incompleteData
    else
      let ts := sortBy (fun a b : ℚ => a ≤ b) (st.timestamps.getD [])
      let obsL := ts.map (fun t => st.results.map (fun r => qGet r.obs t))
      .ok ({ device_ids := st.results.map (fun r => r.device_id),
             types := st.results.map (fun r => r.rtype),
             obs := obsL }, st.lastTimestamp)

/-- A device contributed a result to the batch: it was not skipped and its
retry loop ended without the per-device incomplete-data error. -/
def deviceContributes (minExp maxRetry : ℕ) (d : WFDevice) : Bool :=
  !deviceSkipped d && (retryLoop d.responses minExp maxRetry 0).isOk

/-- `end = start + batch_size - 1` (line 450). -/
def batchEnd (start batchSize : ℚ) : ℚ := start + batchSize - 1

/-- Line 528: `start = end if lastTimestamp == None else lastTimestamp + 1`. -/
def nextStart (start batchSize : ℚ) (lastTimestamp : Option ℚ) : ℚ :=
  match lastTimestamp with
  | Option.none => batchEnd start batchSize
  | some t => t + 1

/-- Line 525: `if end > calendar.timegm(datetime.utcnow().utctimetuple()) or
(stop and end > stop): isFinished = True` (a `stop` of `0` is falsy). -/
def isFinished (start batchSize now : ℚ) (stop : Option ℚ) : Bool :=
  let e := batchEnd start batchSize
  decide (e > now) ||
    (match stop with
     | Option.none => false
     | some s => decide (s ≠ 0) && decide (e > s))

/-! ## `parseUDPPacket` (lines 364-409) -/

/-- Comparison `v > q` as Python evaluates it (`None`, a string or a list
compared against a number raises `TypeError` in Python 3). -/
def valGtNum (v : Val) (q : ℚ) : Except PyErr Bool :=
  match v with
  | .num x => .ok (decide (x > q))
  | _ => .error .typeError

/-- The plain `for key, value in zip(...)` copy used by the `rapid_wind`
and event branches (lines 385-386, 390-391). -/
def zipLoop (label : String) (pairs : List (String × Val)) (packet : Dict) : Dict :=
  pairs.foldl (fun p kv => pyInsert p (kv.1 ++ "." ++ label) kv.2) packet

/-- The `for key, value in zip(fields[...], pkt['obs'][0])` loop of the
observation branch, with the `battery` hook that feeds the
`BatteryModeCalculator` and may add a `battery_mode` key (lines 375-381). -/
def obsZipLoop (label ptype : String) :
    List (String × Val) → Dict → Option (List ℚ) → Dict × Option (List ℚ)
  | [], packet, cw => (packet, cw)
  | (key, value) :: rest, packet, cw =>
      let packet₁ := pyInsert packet (key ++ "." ++ label) value
      if key = "battery" ∧ ptype = "obs_st" then
        match cw with
        | some st =>
            let st₂ := addVoltage st value
            match getMode st₂ with
            | some m =>
                obsZipLoop label ptype rest
                  (pyInsert packet₁ ("battery_mode." ++ label) (Val.num m)) (some st₂)
            | Option.none => obsZipLoop label ptype rest packet₁ (some st₂)
        | Option.none => obsZipLoop label ptype rest packet₁ Option.none
      else obsZipLoop label ptype rest packet₁ cw

/-- `parseUDPPacket` (lines 364-409).  Returns the flat packet and the
updated calculator window.  Where the source would raise — missing or
ill-typed `obs`/`ob`/`evt`/`timestamp` payloads, a non-string serial number
or type — the model returns the Python exception; a packet missing
`serial_number` or `type` is only logged and yields the packet built so far
(the empty dict). -/
def parseUDPPacket (pkt : Dict) (cw : Option (List ℚ)) (now : ℤ) :
    Except PyErr (Dict × Option (List ℚ)) :=
  match pyGet pkt "serial_number", pyGet pkt "type" with
  | some (.str sn), some (.str ty) =>
      let label := pyReplace sn '-' '_' ++ "." ++ ty
      let base := pkt.foldl (fun p kv => pyInsert p (kv.1 ++ "." ++ label) kv.2) []
      if ty = "obs_air" ∨ ty = "obs_sky" ∨ ty = "obs_st" then
        match pyGet pkt "obs" with
        | some (.arr (first :: _)) =>
            match first with
            | .arr (t₀ :: row) =>
                let base := pyInsert base "time_epoch" t₀
                .ok (obsZipLoop label ty ((fieldsFor ty).zip (t₀ :: row)) base cw)
            | .arr [] => .error .indexError
            | _ => .error .typeError
        | some (.arr []) => .error .indexError
        | some _ => .error .typeError
        | Option.none => .error .keyError
      else if ty = "rapid_wind" then
        match pyGet pkt "ob" with
        | some (.arr (t₀ :: row)) =>
            let base := pyInsert base "time_epoch" t₀
            .ok (zipLoop label (fieldsRapidWind.zip (t₀ :: row)) base, cw)
        | some (.arr []) => .error .indexError
        | some _ => .error .typeError
        | Option.none => .error .keyError
      else if ty = "evt_strike" ∨ ty = "evt_precip" then
        match pyGet pkt "evt" with
        | some (.arr (t₀ :: row)) =>
            let base := pyInsert base "time_epoch" t₀
            .ok (zipLoop label ((fieldsFor ty).zip (t₀ :: row)) base, cw)
        | some (.arr []) => .error .indexError
        | some _ => .error .typeError
        | Option.none => .error .keyError
      else if ty = "device_status" ∨ ty = "hub_status" then
        match pyGet pkt "timestamp" with
        | some v => .ok (pyInsert base "time_epoch" v, cw)
        | Option.none => .error .keyError
      else if ty.take 2 = "X_" then
        .ok (pyInsert base "time_epoch" (Val.num (now : ℚ)), cw)
      else
        .ok (base, cw)
  | some _, some _ => .error .typeError
  | _, _ => .ok ([], cw)

/-- A concrete well-formed `obs_st` observation row (integral readings)
used to instantiate theorems about the decoder. -/
def sampleRow : List Val :=
  [Val.num 1617299160, Val.num 0, Val.num 1, Val.num 2, Val.num 3, Val.num 4,
   Val.num 5, Val.num 6, Val.num 7, Val.num 8, Val.num 9, Val.num 10, Val.num 11,
   Val.num 12, Val.num 13, Val.num 14, Val.num 15, Val.num 16]

/-- A concrete well-formed `obs_st` datagram. -/
def samplePacket : Dict :=
  [("serial_number", Val.str "ST-00000512"), ("type", Val.str "obs_st"),
   ("hub_sn", Val.str "HB-00012345"), ("obs", Val.arr [Val.arr sampleRow])]

/-- A flat record with a zero strike count alongside a non-zero average
distance. -/
def strikeZeroPacket : Dict :=
  [("time_epoch", Val.num 2000), ("lightning_strike_count.ST_1.obs_st", Val.num 0),
   ("lightning_strike_avg_distance.ST_1.obs_st", Val.num 14)]

/-- A flat record with a zero wind average alongside a wind direction. -/
def windAvgZeroPacket : Dict :=
  [("time_epoch", Val.num 2000), ("wind_avg.ST_1.obs_st", Val.num 0),
   ("wind_direction.ST_1.obs_st", Val.num 180)]

/-- A flat record with a zero wind speed alongside a wind direction. -/
def windSpeedZeroPacket : Dict :=
  [("time_epoch", Val.num 3000), ("wind_speed.ST_1.rapid_wind", Val.num 0),
   ("wind_direction.ST_1.rapid_wind", Val.num 90)]

/-! ## `mapToWeewxPacket` (lines 281-362) -/

/-- The seven key trackers of the sentinel-correction scan. -/
structure SentinelKeys where
  count : Option String
  dist : Option String
  avg : Option String
  speed : Option String
  dir : Option String
  evtTime : Option String
  evtDist : Option String
deriving DecidableEq, Repr

/-- One step of the key scan (lines 300-315): a key is classified by the
first matching branch of the `elif` chain; the last matching key of a
category wins. -/
def scanStep (s : SentinelKeys) (k : String) : SentinelKeys :=
  if pyFindSub k "lightning_strike_count" then { s with count := some k }
  else if pyFindSub k "lightning_strike_avg_distance" then { s with dist := some k }
  else if pyFindSub k "wind_avg" then { s with avg := some k }
  else if pyFindSub k "wind_speed" then { s with speed := some k }
  else if pyFindSub k "wind_direction" then { s with dir := some k }
  else if pyFindSub k "evt_strike" then
    if pyFindSub k "time_epoch." then { s with evtTime := some k }
    else if pyFindSub k "distance." then { s with evtDist := some k }
    else s
  else s

/-- `for weatherflow_key in pkt.keys(): ...` (lines 300-315). -/
def scanKeys (pkt : Dict) : SentinelKeys :=
  (pyKeys pkt).foldl scanStep
    ⟨Option.none, Option.none, Option.none, Option.none, Option.none,
     Option.none, Option.none⟩

/-- Python `pkt[k] == 0` (comparing `None`, a string or a list with a
number yields `False` without raising). -/
def valEqZero (v : Val) : Bool :=
  match v with
  | .num q => q = 0
  | _ => false

/-- Python `round(x)`: banker's rounding (half to even), on ℚ. -/
def roundHalfEven (q : ℚ) : ℤ :=
  let f := ⌊q⌋
  let frac := q - f
  if frac < 1 / 2 then f
  else if frac > 1 / 2 then f + 1
  else if f % 2 = 0 then f else f + 1

/-- `round(v, 2) == 0.00` (`TypeError` on a non-number; the caller has
already checked `is not None`). -/
def roundsToZeroTwo (v : Val) : Except PyErr Bool :=
  match v with
  | .num q => .ok (decide (roundHalfEven (q * 100) = 0))
  | _ => .error .typeError

/-- Lines 317-321: a strike count equal to `0` forces the average distance
to `None`.  The scanned keys always exist in the record, so the
`getD Val.none` default is never taken. -/
def strikeCorrection (pkt : Dict) (s : SentinelKeys) : Dict :=
  match s.count, s.dist with
  | some kc, some kd =>
      if valEqZero ((pyGet pkt kc).getD Val.none) then pyInsert pkt kd Val.none
      else pkt
  | _, _ => pkt

/-- Lines 323-328 and 330-335 (the two blocks are identical in shape): a
wind value that is not `None` and rounds to 0.00 at two decimals forces the
wind direction to `None`. -/
def windCorrection (pkt : Dict) (wOpt dOpt : Option String) : Except PyErr Dict :=
  match wOpt, dOpt with
  | some kw, some kd =>
      match (pyGet pkt kw).getD Val.none with
      | Val.none => .ok pkt
      | v =>
          match roundsToZeroTwo v with
          | .error e => .error e
          | .ok z => .ok (if z then pyInsert pkt kd Val.none else pkt)
  | _, _ => .ok pkt

/-- The three sentinel corrections (lines 317-335), mutating the flat
record in order: strike count first, then the `wind_avg` block, then the
`wind_speed` block. -/
def applyCorrections (pkt : Dict) (s : SentinelKeys) : Except PyErr Dict :=
  match windCorrection (strikeCorrection pkt s) s.avg s.dir with
  | .error e => .error e
  | .ok pkt₂ => windCorrection pkt₂ s.speed s.dir

/-- The classification invariant of the key scan: a tracked key was
classified by its branch of the `elif` chain, so it fails every earlier
branch's substring test and passes its own. -/
def ScanSpec (s : SentinelKeys) : Prop :=
  (∀ k, s.count = some k → pyFindSub k "lightning_strike_count" = true)
  ∧ (∀ k, s.dist = some k →
      pyFindSub k "lightning_strike_count" = false ∧
      pyFindSub k "lightning_strike_avg_distance" = true)
  ∧ (∀ k, s.avg = some k →
      pyFindSub k "lightning_strike_count" = false ∧
      pyFindSub k "lightning_strike_avg_distance" = false ∧
      pyFindSub k "wind_avg" = true)
  ∧ (∀ k, s.speed = some k →
      pyFindSub k "lightning_strike_count" = false ∧
      pyFindSub k "lightning_strike_avg_distance" = false ∧
      pyFindSub k "wind_avg" = false ∧
      pyFindSub k "wind_speed" = true)
  ∧ (∀ k, s.dir = some k →
      pyFindSub k "lightning_strike_count" = false ∧
      pyFindSub k "lightning_strike_avg_distance" = false ∧
      pyFindSub k "wind_avg" = false ∧
      pyFindSub k "wind_speed" = false ∧
      pyFindSub k "wind_direction" = true)

/-- Strip a transport suffix from a routing label (lines 339-342). -/
def stripLabel (label : String) (isRest : Bool) : String :=
  if pyEndsWith label ".rest" ∧ isRest = true then label.dropRight 5
  else if pyEndsWith label ".udp" ∧ isRest = false then label.dropRight 4
  else label

/-- `label.replace("-","_")` after suffix stripping (line 343). -/
def resolveLabel (label : String) (isRest : Bool) : String :=
  pyReplace (stripLabel label isRest) '-' '_'

/-- The sensor-map routing loop (lines 337-344).  The source accepts a lone
label string or a list of labels (`ensureList`); the model takes the
normalised list form. -/
def routeLoop (pkt : Dict) (isRest : Bool) :
    List (String × List String) → Dict → Dict
  | [], out => out
  | (target, labels) :: rest, out =>
      let out₂ := labels.foldl
        (fun o label =>
          match pyGet pkt (resolveLabel label isRest) with
          | some v => pyInsert o target v
          | Option.none => o) out
      routeLoop pkt isRest rest out₂

/-- `packet['rain'] * 60` (line 348): `TypeError` on `None`.  Python would
replicate a string or list 60 times instead; that cannot occur for a routed
rain value and is modelled as a `TypeError` as well. -/
def rainTimes60 (v : Val) : Except PyErr Val :=
  match v with
  | .num q => .ok (.num (q * 60))
  | _ => .error .typeError

/-- Lines 282-290: the seed output record.  `usUnits` is `weewx.METRICWX`
(17); a packet without `time_epoch` seeds an empty record. -/
def seedPacket (pkt : Dict) (isRest : Bool) (interval : ℚ) : Dict :=
  let packet : Dict :=
    match pyGet pkt "time_epoch" with
    | some v => [("dateTime", v), ("usUnits", Val.num 17)]
    | Option.none => []
  if isRest then pyInsert packet "interval" (Val.num interval) else packet

/-- Lines 346-348: the rain-rate derivation. -/
def rainRateStep (packet : Dict) (generateRainRate : Bool) : Except PyErr Dict :=
  if generateRainRate ∧ pyContains packet "rain" = true then
    match rainTimes60 ((pyGet packet "rain").getD Val.none) with
    | .error e => .error e
    | .ok rr => .ok (pyInsert packet "rainRate" rr)
  else .ok packet

/-- Lines 350-360: the `lightningPerTimestamp` payload, modelled as the
array of its three values (`json.dumps` serialisation is not modelled).  A
missing `evt_distance` key raises `KeyError` inside the `try` and is
swallowed, adding no key. -/
def lightningStep (packet pkt₃ : Dict) (s : SentinelKeys) : Dict :=
  match s.evtTime with
  | some kt =>
      match s.evtDist with
      | some kd =>
          pyInsert packet "lightningPerTimestamp"
            (Val.arr [(pyGet pkt₃ kt).getD Val.none, (pyGet pkt₃ kd).getD Val.none,
                      Val.num 1])
      | Option.none => packet
  | Option.none => packet

/-- `mapToWeewxPacket` (lines 281-362), assembled from its stages in source
order: seed, key scan, sentinel corrections, sensor-map routing, rain rate,
lightning payload. -/
def mapToWeewxPacket (pkt : Dict) (sensor_map : List (String × List String))
    (isRest : Bool) (interval : ℚ) (generateRainRate : Bool) :
    Except PyErr Dict :=
  match applyCorrections pkt (scanKeys pkt) with
  | .error e => .error e
  | .ok pkt₃ =>
      match rainRateStep (routeLoop pkt₃ isRest sensor_map (seedPacket pkt isRest interval))
          generateRainRate with
      | .error e => .error e
      | .ok packet => .ok (lightningStep packet pkt₃ (scanKeys pkt))

/-- The `dateTime` of a routed record, as a rational (0 when absent or
non-numeric; only used on records whose `dateTime` is numeric). -/
def dtOf (r : Dict) : ℚ :=
  match pyGet r "dateTime" with
  | some (Val.num t) => t
  | _ => 0

/-! ## `genLoopPackets` (lines 749-771) -/

/-- One pass of `genLoopPackets` over a finite list of received UDP
packets, each paired with the wall clock at receipt.  Returns the forwarded
loop packets in order, together with the exception that ended the pass, if
any (the generator body has no handler, so a raise propagates).  State:
the last forwarded loop timestamp (initially 0) and the calculator
window. -/
def genLoop (smap : List (String × List String)) (genRR : Bool) (delay : ℚ) :
    List (Dict × ℤ) → ℚ → List ℚ → List Dict × Option PyErr
  | [], _, _ => ([], Option.none)
  | (pkt, now) :: rest, lastTs, cw =>
      match parseUDPPacket pkt (some cw) now with
      | .error e => ([], some e)
      | .ok (m₂, cw₂) =>
          let cw₃ := cw₂.getD []
          match pyGet m₂ "time_epoch" with
          | some te =>
              match valGtNum te 1000 with
              | .error e => ([], some e)
              | .ok false => genLoop smap genRR delay rest lastTs cw₃
              | .ok true =>
                  match mapToWeewxPacket m₂ smap false 1 genRR with
                  | .error e => ([], some e)
                  | .ok m₃ =>
                      if m₃.length > 2 then
                        match te with
                        | .num t =>
                            if t + delay > lastTs then
                              let lastTs₂ := if t > lastTs then t else lastTs
                              let res := genLoop smap genRR delay rest lastTs₂ cw₃
                              (m₃ :: res.1, res.2)
                            else genLoop smap genRR delay rest lastTs cw₃
                        | _ => ([], some .typeError)
                      else genLoop smap genRR delay rest lastTs cw₃
          | Option.none => genLoop smap genRR delay rest lastTs cw₃

/-! ## Helper lemmas for the battery classifier -/

theorem addVoltage_length_le {l : List ℚ} (v : Val) (h : l.length ≤ 10) :
    (addVoltage l v).length ≤ 10 := by
  cases v with
  | none => simpa [addVoltage, valTruthy] using h
  | str s => unfold addVoltage; split <;> exact h
  | arr a => unfold addVoltage; split <;> exact h
  | num q =>
      unfold addVoltage
      split
      · exact h
      · dsimp only
        split <;> rename_i hgt <;>
          simp only [List.length_tail, List.length_append, List.length_cons,
            List.length_nil] at hgt ⊢ <;> omega

theorem foldl_addVoltage_length_le (vs : List Val) :
    ∀ l : List ℚ, l.length ≤ 10 → (List.foldl addVoltage l vs).length ≤ 10 := by
  induction vs with
  | nil => intro l h; simpa using h
  | cons v rest ih =>
      intro l h
      simpa using ih (addVoltage l v) (addVoltage_length_le v h)

theorem lastN_length_le (n : ℕ) (l : List ℚ) : (lastN n l).length ≤ n := by
  simp only [lastN, List.length_drop]; omega

theorem addVoltage_num_eq {l : List ℚ} {q : ℚ} (hq : q ≠ 0) (hl : l.length ≤ 10) :
    addVoltage l (Val.num q) = lastN 10 (l ++ [q]) := by
  unfold addVoltage valTruthy
  simp only [hq, decide_not]
  rw [if_neg (by simpa using hq)]
  simp only [lastN, List.length_append]
  split
  · rename_i hlen
    simp only [List.length_append, List.length_cons, List.length_nil] at hlen
    have h10 : l.length = 10 := by omega
    rw [show l.length + [q].length - 10 = 1 by
        simp only [List.length_cons, List.length_nil]; omega,
      ← List.drop_one]
  · rename_i hlen
    simp only [List.length_append, List.length_cons, List.length_nil] at hlen
    rw [show l.length + [q].length - 10 = 0 by
        simp only [List.length_cons, List.length_nil]; omega,
      List.drop_zero]

theorem lastN_append_lastN (n : ℕ) (xs ys : List ℚ) :
    lastN n (lastN n xs ++ ys) = lastN n (xs ++ ys) := by
  by_cases h : xs.length ≤ n
  · simp [lastN, Nat.sub_eq_zero_of_le h]
  · push_neg at h
    have hk : xs.length - n ≤ xs.length := Nat.sub_le _ _
    simp only [lastN, List.length_append, List.length_drop]
    rw [show xs.length - (xs.length - n) + ys.length - n = ys.length by omega,
      ← List.drop_append_of_le_length hk, List.drop_drop]
    congr 1
    omega

theorem foldl_addVoltage_retention (vs : List (Option ℚ)) :
    ∀ acc : List ℚ, acc.length ≤ 10 → ((0 : ℚ) ∉ vs.reduceOption) →
      List.foldl addVoltage acc (vs.map toVal) = lastN 10 (acc ++ vs.reduceOption) := by
  induction vs with
  | nil =>
      intro acc hacc _
      simp only [List.map_nil, List.foldl_nil, List.reduceOption_nil, List.append_nil, lastN]
      rw [Nat.sub_eq_zero_of_le hacc, List.drop_zero]
  | cons o rest ih =>
      intro acc hacc hnz
      match o with
      | Option.none =>
          have : addVoltage acc (toVal Option.none) = acc := by simp [toVal, addVoltage, valTruthy]
          simpa [this, List.reduceOption_cons_of_none] using
            ih acc hacc (by simpa [List.reduceOption_cons_of_none] using hnz)
      | some q =>
          have hq : q ≠ 0 := by
            intro h
            exact hnz (by simp [List.reduceOption_cons_of_some, h])
          have hnz₂ : (0 : ℚ) ∉ rest.reduceOption := by
            intro h; exact hnz (by simp [List.reduceOption_cons_of_some, h])
          have step : addVoltage acc (toVal (some q)) = lastN 10 (acc ++ [q]) := by
            simpa [toVal] using addVoltage_num_eq hq hacc
          calc List.foldl addVoltage acc ((some q :: rest).map toVal)
              = List.foldl addVoltage (lastN 10 (acc ++ [q])) (rest.map toVal) := by
                simp [step]
            _ = lastN 10 (lastN 10 (acc ++ [q]) ++ rest.reduceOption) :=
                ih _ (lastN_length_le 10 _) hnz₂
            _ = lastN 10 ((acc ++ [q]) ++ rest.reduceOption) := lastN_append_lastN _ _ _
            _ = lastN 10 (acc ++ (some q :: rest).reduceOption) := by
                simp [List.reduceOption_cons_of_some, List.append_assoc]

/-! ## Helper lemmas for the REST fetch model -/

theorem retryGo_ok_length (resp : ℕ → Option (List Row)) (minExp : ℕ) :
    ∀ fuel retry obs, retryGo resp minExp fuel retry = .ok obs →
      minExp ≤ (obs.getD []).length := by
  intro fuel
  induction fuel with
  | zero =>
      intro retry obs h
      exact absurd h (by simp [retryGo])
  | succ n ih =>
      intro retry obs h
      rw [retryGo] at h
      split at h
      · exact ih (retry + 1) obs h
      · rename_i hge
        cases h
        omega

theorem retryLoop_ok_length (resp : ℕ → Option (List Row)) (minExp maxRetry retry : ℕ)
    (obs : Option (List Row)) (h : retryLoop resp minExp maxRetry retry = .ok obs) :
    minExp ≤ (obs.getD []).length :=
  retryGo_ok_length resp minExp (maxRetry + 1 - retry) retry obs h

theorem insertSorted_length {α : Type} (le : α → α → Bool) (x : α) (l : List α) :
    (insertSorted le x l).length = l.length + 1 := by
  induction l with
  | nil => rfl
  | cons y ys ih =>
      unfold insertSorted
      split <;> simp [List.length_cons, ih]

theorem sortBy_length {α : Type} (le : α → α → Bool) (l : List α) :
    (sortBy le l).length = l.length := by
  induction l with
  | nil => rfl
  | cons x xs ih =>
      unfold sortBy
      simp [insertSorted_length, ih]

theorem deviceStep_isOk {minExp maxRetry : ℕ} (hmin : 0 < minExp)
    (st : BatchState) (d : WFDevice) :
    ∃ st₂, deviceStep minExp maxRetry st d = .ok st₂ := by
  unfold deviceStep
  split
  · exact ⟨st, rfl⟩
  · split
    · exact ⟨st, rfl⟩
    · rename_i obs hloop
      dsimp only
      rcases hlt : st.lastTimestamp with _ | lt₀
      · rcases obs with _ | rows
        · exact ⟨_, rfl⟩
        · have hlen := retryLoop_ok_length d.responses minExp maxRetry 0 (some rows) hloop
          have hne : sortedDesc rows ≠ [] := by
            intro hnil
            have hsl := sortBy_length (fun a b => rowTs b ≤ rowTs a) rows
            rw [sortedDesc] at hnil
            rw [hnil] at hsl
            simp only [Option.getD_some] at hlen
            simp at hsl
            omega
          rcases hsd : sortedDesc rows with _ | ⟨top, rest⟩
          · exact absurd hsd hne
          · dsimp only
            rw [hsd]
            exact ⟨_, rfl⟩
      · exact ⟨_, rfl⟩

theorem deviceStep_results {minExp maxRetry : ℕ} {st st₂ : BatchState} {d : WFDevice}
    (h : deviceStep minExp maxRetry st d = .ok st₂) :
    st₂.results.length = st.results.length +
      (if deviceContributes minExp maxRetry d then 1 else 0) := by
  unfold deviceStep at h
  split at h
  · rename_i hskip
    cases h
    simp [deviceContributes, hskip]
  · rename_i hskip
    split at h
    · rename_i e hloop
      cases h
      simp [deviceContributes, hskip, hloop, Except.isOk, Except.toBool]
    · rename_i obs hloop
      dsimp only at h
      have hcon : deviceContributes minExp maxRetry d = true := by
        simp [deviceContributes, hskip, hloop, Except.isOk, Except.toBool]
      split at h
      · exact absurd h (by simp)
      · cases h
        simp [hcon]

theorem processDevices_ok {minExp maxRetry : ℕ} (hmin : 0 < minExp) :
    ∀ (ds : List WFDevice) (st : BatchState),
      ∃ st₂, processDevices minExp maxRetry ds st = .ok st₂ ∧
        st₂.results.length = st.results.length +
          (ds.filter (fun d => deviceContributes minExp maxRetry d)).length := by
  intro ds
  induction ds with
  | nil => intro st; exact ⟨st, rfl, by simp⟩
  | cons d rest ih =>
      intro st
      obtain ⟨st₁, h₁⟩ := deviceStep_isOk hmin st d
      obtain ⟨st₂, h₂, hlen⟩ := ih st₁
      refine ⟨st₂, ?_, ?_⟩
      · unfold processDevices
        rw [h₁]
        exact h₂
      · rw [hlen, deviceStep_results h₁]
        by_cases hc : deviceContributes minExp maxRetry d <;>
          simp [hc, List.filter_cons] <;> omega

/-! ## Claim theorems: battery classifier and archive window -/

/-- C9 counterexample: the claim says `addVoltage` appends every non-null
value, but the source's `if not value: return` also drops the non-null
sample `0`, leaving the window unchanged instead of appending. -/
theorem claim_C9_counterexample :
    addVoltage [] (Val.num 0) = [] ∧ addVoltage [] (Val.num 0) ≠ [0] := by
  constructor
  · rfl
  · intro h
    simpa [addVoltage, valTruthy] using h

/-- C9 (amended): the voltage window never holds more than 10 samples;
`addVoltage` ignores every falsy value (null or `0`) and otherwise appends,
evicting the oldest, so the 10 most recent non-ignored samples are retained
in arrival order. -/
theorem claim_C9_amended :
    (∀ vs : List Val, (List.foldl addVoltage [] vs).length ≤ 10)
    ∧ (∀ (l : List ℚ) (v : Val), valTruthy v = false → addVoltage l v = l)
    ∧ (∀ vs : List (Option ℚ), (0 : ℚ) ∉ vs.reduceOption →
        List.foldl addVoltage [] (vs.map toVal) = lastN 10 vs.reduceOption) := by
  refine ⟨fun vs => foldl_addVoltage_length_le vs [] (by simp), ?_, ?_⟩
  · intro l v hv
    unfold addVoltage
    rw [hv]
    simp
  · intro vs hnz
    simpa using foldl_addVoltage_retention vs [] (by simp) hnz

theorem claim_C9_amended_witness :
    addVoltage [1, 2] Val.none = [1, 2] ∧
    List.foldl addVoltage []
        ([some 1, Option.none, some 2].map toVal) =
      lastN 10 ([some 1, Option.none, some 2] : List (Option ℚ)).reduceOption := by
  exact ⟨claim_C9_amended.2.1 [1, 2] Val.none (by rfl),
         claim_C9_amended.2.2 [some 1, Option.none, some 2] (by norm_num)⟩

/-- C5 counterexample: ten strictly ascending voltages whose newest-five sum
exceeds the oldest-five sum by only 0.025 (≤ the 0.05 hysteresis margin) are
classified as discharging, refuting "feeding ten ascending voltages
classifies as charging". -/
theorem claim_C5_counterexample :
    List.Chain' (· < ·)
      ([1, 1.001, 1.002, 1.003, 1.004, 1.005, 1.006, 1.007, 1.008, 1.009] : List ℚ)
    ∧ isCharging (List.foldl addVoltage []
        (([1, 1.001, 1.002, 1.003, 1.004, 1.005, 1.006, 1.007, 1.008, 1.009] : List ℚ).map
          Val.num)) = false := by
  constructor
  · norm_num [List.chain'_cons]
  · norm_num [List.foldl_cons, List.foldl_nil, addVoltage, valTruthy, isCharging,
      List.take, List.drop, List.sum_cons, List.sum_nil]

/-- C5 (amended): with a full window of 10 samples the classifier reports
charging exactly when the newest-five sum exceeds the oldest-five sum by
more than 0.05 (ascending voltages with at least that margin are charging);
with fewer than 10 samples it reports discharging; ten descending voltages
report discharging; and within one fixed charge direction `getMode` is
monotonically non-increasing as the mean of the newest five samples rises,
with the cut-points of the source. -/
theorem claim_C5_amended :
    (∀ l : List ℚ, l.length = 10 →
        (isCharging l = true ↔ (l.drop 5).sum - (l.take 5).sum > 0.05))
    ∧ (∀ l : List ℚ, l.length < 10 → isCharging l = false)
    ∧ (∀ v₀ v₁ v₂ v₃ v₄ v₅ v₆ v₇ v₈ v₉ : ℚ,
        v₀ > v₁ → v₁ > v₂ → v₂ > v₃ → v₃ > v₄ → v₄ > v₅ → v₅ > v₆ → v₆ > v₇ →
        v₇ > v₈ → v₈ > v₉ →
        isCharging [v₀, v₁, v₂, v₃, v₄, v₅, v₆, v₇, v₈, v₉] = false)
    ∧ (∀ (l₁ l₂ : List ℚ) (m₁ m₂ : ℕ),
        isCharging l₁ = isCharging l₂ → currentValue l₁ ≤ currentValue l₂ →
        getMode l₁ = some m₁ → getMode l₂ = some m₂ → m₂ ≤ m₁) := by
  refine ⟨?_, ?_, ?_, ?_⟩
  · intro l h
    have ht : (l.drop 5).take 5 = l.drop 5 :=
      List.take_of_length_le (by simp [List.length_drop, h])
    simp only [isCharging, h, if_pos rfl, ht]
    exact decide_eq_true_iff
  · intro l h
    simp [isCharging, show l.length ≠ 10 by omega]
  · intro v₀ v₁ v₂ v₃ v₄ v₅ v₆ v₇ v₈ v₉ h₀ h₁ h₂ h₃ h₄ h₅ h₆ h₇ h₈
    have hlen : ([v₀, v₁, v₂, v₃, v₄, v₅, v₆, v₇, v₈, v₉] : List ℚ).length = 10 := rfl
    have htk : ([v₀, v₁, v₂, v₃, v₄, v₅, v₆, v₇, v₈, v₉] : List ℚ).take 5 =
        [v₀, v₁, v₂, v₃, v₄] := rfl
    have hdr : (([v₀, v₁, v₂, v₃, v₄, v₅, v₆, v₇, v₈, v₉] : List ℚ).drop 5).take 5 =
        [v₅, v₆, v₇, v₈, v₉] := rfl
    unfold isCharging
    rw [if_pos hlen]
    simp only [htk, hdr, List.sum_cons, List.sum_nil, decide_eq_false_iff_not, not_lt]
    linarith
  · intro l₁ l₂ m₁ m₂ hcb hmean h₁ h₂
    by_cases e₁ : l₁.length = 0
    · simp [getMode, e₁] at h₁
    by_cases e₂ : l₂.length = 0
    · simp [getMode, e₂] at h₂
    rw [getMode, if_neg e₁, Option.some_inj] at h₁
    rw [getMode, if_neg e₂, ← hcb, Option.some_inj] at h₂
    subst h₁
    subst h₂
    cases hch : isCharging l₁ <;> simp only [hch, if_pos, if_neg, Bool.false_eq_true,
      ite_false, ite_true] <;> split_ifs <;> first | omega | linarith

theorem claim_C5_amended_witness :
    (isCharging [(2 : ℚ), 2, 2, 2, 2, 3, 3, 3, 3, 3] = true ↔
      (([(2 : ℚ), 2, 2, 2, 2, 3, 3, 3, 3, 3]).drop 5).sum -
        (([(2 : ℚ), 2, 2, 2, 2, 3, 3, 3, 3, 3]).take 5).sum > 0.05)
    ∧ isCharging [(1 : ℚ)] = false
    ∧ isCharging [(9 : ℚ), 8, 7, 6, 5, 4, 3, 2, 1, 0] = false
    ∧ (0 : ℕ) ≤ 3 := by
  refine ⟨claim_C5_amended.1 _ (by rfl), claim_C5_amended.2.1 [(1 : ℚ)] (by norm_num),
    claim_C5_amended.2.2.1 9 8 7 6 5 4 3 2 1 0 (by norm_num) (by norm_num) (by norm_num)
      (by norm_num) (by norm_num) (by norm_num) (by norm_num) (by norm_num) (by norm_num),
    claim_C5_amended.2.2.2 [(1 : ℚ)] [(3 : ℚ)] 3 0 (by rfl)
      (by norm_num [currentValue, lastN])
      (by norm_num [getMode, isCharging, currentValue, lastN])
      (by norm_num [getMode, isCharging, currentValue, lastN])⟩

/-- C1: the construction-time clip holds (`__init__` never lets the window
end exceed `now`), but at roll time `startNextArchiveInterval` leaves the
freshly opened window's end at `newStart + interval` unclipped, because the
source assigns a misspelled local instead of the attribute: rolling to
start 90 with interval 60 at wall clock 100 yields end 150 > 100. -/
theorem claim_C1_bug :
    (∀ start interval delay now : ℤ,
        (ArchivePeriod.init start interval delay now).end_ts ≤ now)
    ∧ ((ArchivePeriod.init 0 60 15 100).startNextArchiveInterval 90 100).end_ts = 150
    ∧ (150 : ℤ) > 100 := by
  refine ⟨?_, by decide, by norm_num⟩
  intro s i d n
  simp only [ArchivePeriod.init]
  split <;> omega

/-- C3: with `min_expected_observation_count > 0`, a batch raises
`IncompleteDataException` to the caller exactly when no device contributed a
result (every device was skipped or exhausted its retries); when at least
one device succeeds the batch is yielded and per-device incompleteness is
only absorbed. -/
theorem claim_C3 (minExp maxRetry : ℕ) (devices : List WFDevice) (hmin : 0 < minExp) :
    ((runBatch minExp maxRetry devices = .error .incompleteData) ↔
      ∀ d ∈ devices, deviceContributes minExp maxRetry d = false)
    ∧ ((∃ d ∈ devices, deviceContributes minExp maxRetry d = true) →
        ∃ out, runBatch minExp maxRetry devices = .ok out) := by
  obtain ⟨st₂, hp, hlen⟩ := processDevices_ok hmin devices
    { results := [], lastTimestamp := Option.none, timestamps := Option.none }
  simp only [List.length_nil, Nat.zero_add] at hlen
  have hrun : runBatch minExp maxRetry devices =
      (if st₂.results.length = 0 then .error .incompleteData
       else
        let ts := sortBy (fun a b : ℚ => a ≤ b) (st₂.timestamps.getD [])
        let obsL := ts.map (fun t => st₂.results.map (fun r => qGet r.obs t))
        .ok ({ device_ids := st₂.results.map (fun r => r.device_id),
               types := st₂.results.map (fun r => r.rtype),
               obs := obsL }, st₂.lastTimestamp)) := by
    unfold runBatch
    rw [hp]
  constructor
  · constructor
    · intro herr d hd
      by_cases hz : st₂.results.length = 0
      · have hfil : (devices.filter (fun d => deviceContributes minExp maxRetry d)) = [] :=
          List.length_eq_zero.mp (by omega)
        have := List.filter_eq_nil.mp hfil d hd
        simpa using this
      · rw [hrun, if_neg hz] at herr
        exact absurd herr (by simp)
    · intro hall
      have hfil : (devices.filter (fun d => deviceContributes minExp maxRetry d)) = [] :=
        List.filter_eq_nil.mpr (by intro d hd; simp [hall d hd])
      rw [hrun, if_pos (by rw [hlen, hfil]; rfl)]
  · rintro ⟨d, hd, hc⟩
    have hmem : d ∈ devices.filter (fun d => deviceContributes minExp maxRetry d) :=
      List.mem_filter.mpr ⟨hd, by simp [hc]⟩
    have hpos : 0 < (devices.filter (fun d => deviceContributes minExp maxRetry d)).length :=
      List.length_pos.mpr (by intro hnil; rw [hnil] at hmem; cases hmem)
    rw [hrun, if_neg (by omega)]
    exact ⟨_, rfl⟩

theorem claim_C3_witness :
    ((runBatch 1 0 [⟨some "ST", fun _ => some [[(10 : ℚ), 1]], 7, "obs_st"⟩] =
        .error .incompleteData) ↔
      ∀ d ∈ [(⟨some "ST", fun _ => some [[(10 : ℚ), 1]], 7, "obs_st"⟩ : WFDevice)],
        deviceContributes 1 0 d = false)
    ∧ ((∃ d ∈ [(⟨some "ST", fun _ => some [[(10 : ℚ), 1]], 7, "obs_st"⟩ : WFDevice)],
          deviceContributes 1 0 d = true) →
        ∃ out, runBatch 1 0 [⟨some "ST", fun _ => some [[(10 : ℚ), 1]], 7, "obs_st"⟩] =
          .ok out) :=
  claim_C3 1 0 [⟨some "ST", fun _ => some [[(10 : ℚ), 1]], 7, "obs_st"⟩] (by norm_num)

/-- C2: with two responding devices, the combined batch keeps only the first
responding device's distinct timestamps: device 2's observation at
timestamp 15 gets no entry (the union on line 500 is short-circuited by the
leading `timestamps or …` once `timestamps` is non-empty), although the
devices' rows carry three distinct timestamps.  The claimed behaviour would
give three entries. -/
theorem claim_C2_bug :
    runBatch 1 0
        [⟨some "ST", fun _ => some [[10, 1], [20, 2]], 1, "obs_st"⟩,
         ⟨some "ST", fun _ => some [[10, 3], [15, 4]], 2, "obs_st"⟩]
      = .ok ({ device_ids := [1, 2], types := ["obs_st", "obs_st"],
               obs := [[some [10, 1], some [10, 3]], [some [20, 2], Option.none]] },
             some 20)
    ∧ ((([[10, 1], [20, 2]] : List Row).map rowTs) ++
        (([[10, 3], [15, 4]] : List Row).map rowTs)).dedup.length = 3 := by
  constructor
  · decide
  · decide

/-- C8 counterexample: after a batch in which no observation was found, the
source advances `start` to `end` (`start + batch_size - 1`), not to
`end + 1` as claimed: with start 100 and batch size 50 the next start is
149, not 150. -/
theorem claim_C8_counterexample :
    nextStart 100 50 Option.none = 149 ∧ batchEnd 100 50 = 149 ∧ (149 : ℚ) ≠ 149 + 1 := by
  refine ⟨?_, ?_, by norm_num⟩ <;> norm_num [nextStart, batchEnd]

/-- C8 (amended): after a batch the fetch advances `start` to
`last_confirmed + 1` when an observation was confirmed, and to `batch_end`
(without `+ 1`) when none was; the loop finishes once the batch end passes
the wall clock (in particular whenever it passes both the wall clock and
any caller-supplied stop bound). -/
theorem claim_C8_amended :
    (∀ start batchSize t : ℚ, nextStart start batchSize (some t) = t + 1)
    ∧ (∀ start batchSize : ℚ, nextStart start batchSize Option.none = batchEnd start batchSize)
    ∧ (∀ (start batchSize now : ℚ) (stop : Option ℚ),
        batchEnd start batchSize > now → isFinished start batchSize now stop = true) := by
  refine ⟨fun _ _ _ => rfl, fun _ _ => rfl, ?_⟩
  intro start batchSize now stop h
  unfold isFinished
  simp [h]

theorem claim_C8_amended_witness :
    nextStart 0 10 (some 5) = 5 + 1
    ∧ nextStart 0 10 Option.none = batchEnd 0 10
    ∧ isFinished 100 50 3 Option.none = true :=
  ⟨claim_C8_amended.1 0 10 5, claim_C8_amended.2.1 0 10,
   claim_C8_amended.2.2 100 50 3 Option.none (by norm_num [batchEnd])⟩

/-! ## Helper lemmas for the packet dictionaries -/

theorem pyGet_pyInsert_self (d : Dict) (k : String) (v : Val) :
    pyGet (pyInsert d k v) k = some v := by
  induction d with
  | nil => simp [pyInsert, pyGet]
  | cons kv t ih =>
      obtain ⟨k₂, v₂⟩ := kv
      by_cases h : k₂ = k
      · simp [pyInsert, pyGet, h]
      · simp [pyInsert, pyGet, h, ih]

theorem pyGet_pyInsert_ne (d : Dict) {k k₂ : String} (v : Val) (h : k₂ ≠ k) :
    pyGet (pyInsert d k₂ v) k = pyGet d k := by
  induction d with
  | nil => simp [pyInsert, pyGet, h]
  | cons kv t ih =>
      obtain ⟨k₃, v₃⟩ := kv
      by_cases h₂ : k₃ = k₂
      · subst h₂
        simp [pyInsert, pyGet, h]
      · simp [pyInsert, pyGet, h₂, ih]

theorem pyInsert_not_mem {d : Dict} {k : String} (v : Val) (h : k ∉ pyKeys d) :
    pyInsert d k v = d ++ [(k, v)] := by
  induction d with
  | nil => rfl
  | cons kv t ih =>
      obtain ⟨k₂, v₂⟩ := kv
      simp only [pyKeys, List.map_cons, List.mem_cons] at h
      push_neg at h
      simp only [pyInsert, List.cons_append]
      rw [if_neg (fun hh => h.1 hh.symm), ih (by simpa [pyKeys] using h.2)]

theorem pyGet_not_mem {d : Dict} {k : String} (h : k ∉ pyKeys d) :
    pyGet d k = Option.none := by
  induction d with
  | nil => rfl
  | cons kv t ih =>
      obtain ⟨k₂, v₂⟩ := kv
      simp only [pyKeys, List.map_cons, List.mem_cons] at h
      push_neg at h
      simp only [pyGet]
      rw [if_neg (fun hh => h.1 hh.symm)]
      exact ih (by simpa [pyKeys] using h.2)

theorem pyGet_append_right {d₁ : Dict} (d₂ : Dict) {k : String}
    (h : k ∉ pyKeys d₁) : pyGet (d₁ ++ d₂) k = pyGet d₂ k := by
  induction d₁ with
  | nil => rfl
  | cons kv t ih =>
      obtain ⟨k₂, v₂⟩ := kv
      simp only [pyKeys, List.map_cons, List.mem_cons] at h
      push_neg at h
      simp only [List.cons_append, pyGet]
      rw [if_neg (fun hh => h.1 hh.symm)]
      exact ih (by simpa [pyKeys] using h.2)

theorem stringAppend_cancel {a b t : String} (h : a ++ t = b ++ t) : a = b := by
  have hd : a.data ++ t.data = b.data ++ t.data := by
    have := congrArg String.data h
    simpa [String.data_append] using this
  exact String.ext (List.append_cancel_right hd)

/-- Appending `"." ++ label` to a key is injective. -/
theorem suffix_label_inj {label a b : String}
    (h : a ++ "." ++ label = b ++ "." ++ label) : a = b := by
  rw [String.append_assoc, String.append_assoc] at h
  exact stringAppend_cancel h

/-! ## Helper lemmas for `mapToWeewxPacket` -/

theorem windCorrection_get_ne {pkt pkt₂ : Dict} {wOpt dOpt : Option String}
    (h : windCorrection pkt wOpt dOpt = .ok pkt₂) {k : String}
    (hne : ∀ kd, dOpt = some kd → kd ≠ k) : pyGet pkt₂ k = pyGet pkt k := by
  unfold windCorrection at h
  split at h
  · rename_i kw kd
    split at h
    · cases h; rfl
    · split at h
      · exact absurd h (by simp)
      · rename_i z hz
        cases h
        split
        · exact pyGet_pyInsert_ne _ _ (hne kd rfl)
        · rfl
  · cases h; rfl

theorem routeLoop_preserve {pkt : Dict} {isRest : Bool} :
    ∀ (smap : List (String × List String)) (out : Dict) (w : String),
      (∀ p ∈ smap, p.1 ≠ w) →
      pyGet (routeLoop pkt isRest smap out) w = pyGet out w := by
  intro smap
  induction smap with
  | nil => intro out w _; rfl
  | cons p rest ih =>
      intro out w hw
      obtain ⟨t, labels⟩ := p
      have ht : t ≠ w := hw (t, labels) (by simp)
      rw [routeLoop, ih _ w (fun p hp => hw p (by simp [hp]))]
      clear ih hw
      induction labels generalizing out with
      | nil => rfl
      | cons l ls ihl =>
          simp only [List.foldl_cons]
          rw [ihl]
          cases hres : pyGet pkt (resolveLabel l isRest) <;> simp [hres]
          exact pyGet_pyInsert_ne _ _ ht

theorem routeLoop_find {pkt : Dict} {isRest : Bool} :
    ∀ (smap : List (String × List String)) (out : Dict) (w lbl : String) (v : Val),
      (smap.map Prod.fst).Nodup → (w, [lbl]) ∈ smap →
      pyGet pkt (resolveLabel lbl isRest) = some v →
      pyGet (routeLoop pkt isRest smap out) w = some v := by
  intro smap
  induction smap with
  | nil => intro out w lbl v _ hmem; cases hmem
  | cons p rest ih =>
      intro out w lbl v hnd hmem hres
      obtain ⟨t, labels⟩ := p
      simp only [List.map_cons, List.nodup_cons] at hnd
      rcases List.mem_cons.mp hmem with hhead | htail
      · injection hhead with h₁ h₂
        subst h₁
        subst h₂
        rw [routeLoop]
        rw [routeLoop_preserve rest _ w
          (fun p hp hpw => hnd.1 (by rw [← hpw]; exact List.mem_map_of_mem Prod.fst hp))]
        simp only [List.foldl_cons, List.foldl_nil, hres]
        exact pyGet_pyInsert_self _ _ _
      · rw [routeLoop]
        exact ih _ w lbl v hnd.2 htail hres

set_option maxHeartbeats 1000000 in
theorem scanStep_spec {s : SentinelKeys} (k : String) (h : ScanSpec s) :
    ScanSpec (scanStep s k) := by
  obtain ⟨hc, hd, ha, hsp, hdir⟩ := h
  have bfalse : ∀ b : Bool, ¬(b = true) → b = false := fun b hb => by simpa using hb
  unfold scanStep ScanSpec
  split_ifs with h₁ h₂ h₃ h₄ h₅ h₆ h₇ h₈
  · exact ⟨fun k' hk' => by cases Option.some.inj hk'; exact h₁, hd, ha, hsp, hdir⟩
  · exact ⟨hc, fun k' hk' => by
      cases Option.some.inj hk'
      exact ⟨bfalse _ h₁, h₂⟩, ha, hsp, hdir⟩
  · exact ⟨hc, hd, fun k' hk' => by
      cases Option.some.inj hk'
      exact ⟨bfalse _ h₁, bfalse _ h₂, h₃⟩, hsp, hdir⟩
  · exact ⟨hc, hd, ha, fun k' hk' => by
      cases Option.some.inj hk'
      exact ⟨bfalse _ h₁, bfalse _ h₂, bfalse _ h₃, h₄⟩, hdir⟩
  · exact ⟨hc, hd, ha, hsp, fun k' hk' => by
      cases Option.some.inj hk'
      exact ⟨bfalse _ h₁, bfalse _ h₂, bfalse _ h₃, bfalse _ h₄, h₅⟩⟩
  · exact ⟨hc, hd, ha, hsp, hdir⟩
  · exact ⟨hc, hd, ha, hsp, hdir⟩
  · exact ⟨hc, hd, ha, hsp, hdir⟩
  · exact ⟨hc, hd, ha, hsp, hdir⟩

theorem scanKeys_spec (pkt : Dict) : ScanSpec (scanKeys pkt) := by
  unfold scanKeys
  have main : ∀ (ks : List String) (s₀ : SentinelKeys), ScanSpec s₀ →
      ScanSpec (ks.foldl scanStep s₀) := by
    intro ks
    induction ks with
    | nil => intro s₀ h; exact h
    | cons k rest ih => intro s₀ h; exact ih _ (scanStep_spec k h)
  refine main _ _ ?_
  unfold ScanSpec
  refine ⟨?_, ?_, ?_, ?_, ?_⟩ <;> intro k hk <;> exact Option.noConfusion hk

theorem strikeCorrection_sets {pkt : Dict} {s : SentinelKeys} {kc kd : String}
    (hc : s.count = some kc) (hd : s.dist = some kd)
    (hv : pyGet pkt kc = some (Val.num 0)) :
    strikeCorrection pkt s = pyInsert pkt kd Val.none := by
  unfold strikeCorrection
  rw [hc, hd]
  dsimp only
  rw [hv]
  simp [valEqZero]

theorem strikeCorrection_get_ne {pkt : Dict} {s : SentinelKeys} {k : String}
    (hk : ∀ kd, s.dist = some kd → kd ≠ k) :
    pyGet (strikeCorrection pkt s) k = pyGet pkt k := by
  unfold strikeCorrection
  split
  · rename_i kc kd hc hd
    split
    · exact pyGet_pyInsert_ne _ _ (hk kd hd)
    · rfl
  · rfl

theorem windCorrection_sets {pkt : Dict} {kw kd : String} {q : ℚ}
    (hv : pyGet pkt kw = some (Val.num q)) (hz : roundHalfEven (q * 100) = 0) :
    windCorrection pkt (some kw) (some kd) = .ok (pyInsert pkt kd Val.none) := by
  unfold windCorrection
  dsimp only
  rw [hv]
  simp [roundsToZeroTwo, hz]

theorem windCorrection_get_none {pkt pkt₂ : Dict} {wOpt dOpt : Option String}
    (h : windCorrection pkt wOpt dOpt = .ok pkt₂) {k : String}
    (hv : pyGet pkt k = some Val.none) : pyGet pkt₂ k = some Val.none := by
  unfold windCorrection at h
  split at h
  · rename_i kw kd
    split at h
    · cases h; exact hv
    · split at h
      · exact absurd h (by simp)
      · cases h
        split
        · by_cases hkk : kd = k
          · subst hkk
            exact pyGet_pyInsert_self _ _ _
          · rw [pyGet_pyInsert_ne _ _ hkk]
            exact hv
        · exact hv
  · cases h; exact hv

theorem applyCorrections_inv {pkt : Dict} {s : SentinelKeys} {pkt₃ : Dict}
    (h : applyCorrections pkt s = .ok pkt₃) :
    ∃ pkt₂, windCorrection (strikeCorrection pkt s) s.avg s.dir = .ok pkt₂ ∧
      windCorrection pkt₂ s.speed s.dir = .ok pkt₃ := by
  unfold applyCorrections at h
  split at h
  · exact absurd h (by simp)
  · rename_i pkt₂ hw
    exact ⟨pkt₂, hw, h⟩

theorem rainRateStep_get_ne {p p₁ : Dict} {g : Bool} (h : rainRateStep p g = .ok p₁)
    {k : String} (hk : k ≠ "rainRate") : pyGet p₁ k = pyGet p k := by
  unfold rainRateStep at h
  split at h
  · split at h
    · exact absurd h (by simp)
    · cases h
      exact pyGet_pyInsert_ne _ _ (fun hh => hk hh.symm)
  · cases h; rfl

/-- Inversion of `mapToWeewxPacket`: a returned record is the lightning
stage applied to an ok rain-rate stage applied to the routed, corrected
record. -/
theorem mapToWeewxPacket_inv {pkt : Dict} {smap : List (String × List String)}
    {isRest : Bool} {interval : ℚ} {genRR : Bool} {out : Dict}
    (h : mapToWeewxPacket pkt smap isRest interval genRR = .ok out) :
    ∃ pkt₃ packet₁,
      applyCorrections pkt (scanKeys pkt) = .ok pkt₃ ∧
      rainRateStep (routeLoop pkt₃ isRest smap (seedPacket pkt isRest interval)) genRR
        = .ok packet₁ ∧
      out = lightningStep packet₁ pkt₃ (scanKeys pkt) := by
  unfold mapToWeewxPacket at h
  split at h
  · exact absurd h (by simp)
  · rename_i pkt₃ hc
    split at h
    · exact absurd h (by simp)
    · rename_i packet₁ hr
      cases h
      exact ⟨pkt₃, packet₁, hc, hr, rfl⟩

theorem lightningStep_get_ne {packet pkt₃ : Dict} {s : SentinelKeys} {k : String}
    (hk : k ≠ "lightningPerTimestamp") :
    pyGet (lightningStep packet pkt₃ s) k = pyGet packet k := by
  unfold lightningStep
  rcases s.evtTime with _ | kt
  · rfl
  · rcases s.evtDist with _ | kd
    · rfl
    · exact pyGet_pyInsert_ne _ _ (fun hh => hk hh.symm)

theorem rainTimes60_ok_num {v rr : Val} (h : rainTimes60 v = .ok rr) :
    ∃ q : ℚ, v = Val.num q := by
  cases v with
  | num q => exact ⟨q, rfl⟩
  | none => exact absurd h (by simp [rainTimes60])
  | str s => exact absurd h (by simp [rainTimes60])
  | arr a => exact absurd h (by simp [rainTimes60])

/-- C10: the rain-rate derivation is not total: with `generateRainRate`
enabled and a sensor-map entry routing a `None` rain value into `rain`,
`packet['rain'] * 60` raises `TypeError` and `mapToWeewxPacket` returns no
record; and whenever it does return a record with `generateRainRate`
enabled, every routed `rain` value in it is numeric. -/
theorem claim_C10 :
    (mapToWeewxPacket
        [("time_epoch", Val.num 2000), ("rain_accumulated.ST_1.obs_st", Val.none)]
        [("rain", ["rain_accumulated.ST-1.obs_st"])] false 1 true
      = .error .typeError)
    ∧ (∀ (pkt : Dict) (smap : List (String × List String)) (isRest : Bool)
        (interval : ℚ) (out : Dict) (v : Val),
        mapToWeewxPacket pkt smap isRest interval true = .ok out →
        pyGet out "rain" = some v → ∃ q : ℚ, v = Val.num q) := by
  constructor
  · decide
  · intro pkt smap isRest interval out v h hget
    obtain ⟨pkt₃, p₁, hc, hr, hout⟩ := mapToWeewxPacket_inv h
    rw [hout, lightningStep_get_ne (by decide)] at hget
    unfold rainRateStep at hr
    split at hr
    · rename_i hcond
      cases hrt : rainTimes60 ((pyGet (routeLoop pkt₃ isRest smap
          (seedPacket pkt isRest interval)) "rain").getD Val.none) with
      | error e =>
          rw [hrt] at hr
          exact absurd hr (by simp)
      | ok rr =>
          rw [hrt] at hr
          cases hr
          rw [pyGet_pyInsert_ne _ _ (by decide)] at hget
          obtain ⟨q, hq⟩ := rainTimes60_ok_num hrt
          rcases hsome : pyGet (routeLoop pkt₃ isRest smap
              (seedPacket pkt isRest interval)) "rain" with _ | v₀
          · exfalso
            have hcc := hcond.2
            rw [pyContains, hsome] at hcc
            exact absurd hcc (by simp)
          · rw [hsome] at hget hq
            cases hget
            exact ⟨q, by simpa using hq⟩
    · rename_i hcond
      cases hr
      exact absurd ⟨rfl, by rw [pyContains, hget]; rfl⟩ hcond

/-! ## Helper lemmas for `parseUDPPacket` -/

theorem foldl_pyInsert_eq_append :
    ∀ (pairs : List (String × Val)) (acc : Dict),
      (∀ kv ∈ pairs, kv.1 ∉ pyKeys acc) →
      (pyKeys pairs).Nodup →
      pairs.foldl (fun p kv => pyInsert p kv.1 kv.2) acc = acc ++ pairs := by
  intro pairs
  induction pairs with
  | nil => intro acc _ _; simp
  | cons kv rest ih =>
      intro acc hfresh hnd
      simp only [List.foldl_cons]
      rw [pyInsert_not_mem kv.2 (hfresh kv (by simp))]
      rw [ih (acc ++ [kv]) ?_ ?_]
      · simp
      · intro kv₂ hkv₂
        simp only [pyKeys, List.map_append, List.map_cons, List.map_nil, List.mem_append,
          List.mem_singleton]
        push_neg
        refine ⟨hfresh kv₂ (by simp [hkv₂]), ?_⟩
        simp only [pyKeys, List.map_cons, List.nodup_cons] at hnd
        intro heq
        exact hnd.1 (heq ▸ List.mem_map_of_mem Prod.fst hkv₂)
      · simp only [pyKeys, List.map_cons, List.nodup_cons] at hnd
        exact hnd.2

theorem obsZipLoop_none (label ptype : String) :
    ∀ (pairs : List (String × Val)) (packet : Dict),
      obsZipLoop label ptype pairs packet Option.none =
        (zipLoop label pairs packet, Option.none) := by
  intro pairs
  induction pairs with
  | nil => intro packet; rfl
  | cons kv rest ih =>
      intro packet
      obtain ⟨key, value⟩ := kv
      rw [obsZipLoop]
      split
      · simpa [zipLoop] using ih _
      · simpa [zipLoop] using ih _

theorem zipLoop_eq_append (label : String) (pairs : List (String × Val)) (acc : Dict)
    (hfresh : ∀ kv ∈ pairs, kv.1 ++ "." ++ label ∉ pyKeys acc)
    (hnd : ((pyKeys pairs).map (fun k => k ++ "." ++ label)).Nodup) :
    zipLoop label pairs acc =
      acc ++ pairs.map (fun kv => (kv.1 ++ "." ++ label, kv.2)) := by
  unfold zipLoop
  rw [← List.foldl_map (fun kv : String × Val => (kv.1 ++ "." ++ label, kv.2))
    (fun p kv => pyInsert p kv.1 kv.2)]
  rw [foldl_pyInsert_eq_append _ acc]
  · intro kv hkv
    obtain ⟨kv₀, hkv₀, hmap⟩ := List.mem_map.mp hkv
    subst hmap
    exact hfresh kv₀ hkv₀
  · have : pyKeys (pairs.map (fun kv => (kv.1 ++ "." ++ label, kv.2))) =
        (pyKeys pairs).map (fun k => k ++ "." ++ label) := by
      simp [pyKeys, List.map_map]
    rw [this]
    exact hnd

/-- C6: for every well-formed `obs_st` raw packet, `parseUDPPacket` (run
without the calculator, the pure decode) sets the unqualified `time_epoch`
key to `obs[0][0]` and writes exactly the 18 schema keys
`<field>.<serial_with_underscores>.obs_st`, positionally zipped from
`obs[0]`, after the raw-copy keys: the flat record is exactly the raw-copy
keys, then `time_epoch`, then one key per schema field, so its size is
`len(pkt) + 1 + 18`.  The freshness hypotheses say the packet's top-level
keys do not collide with schema field names or produce the key
`time_epoch`, which holds for every real packet. -/
theorem claim_C6 (pkt : Dict) (sn : String) (t₀ : Val) (row : List Val)
    (restRows : List Val) (now : ℤ)
    (hnd : (pyKeys pkt).Nodup)
    (hser : pyGet pkt "serial_number" = some (Val.str sn))
    (hty : pyGet pkt "type" = some (Val.str "obs_st"))
    (hobs : pyGet pkt "obs" = some (Val.arr (Val.arr (t₀ :: row) :: restRows)))
    (hlen : (t₀ :: row).length = 18)
    (hfresh₁ : ∀ k ∈ pyKeys pkt,
      k ++ "." ++ (pyReplace sn '-' '_' ++ "." ++ "obs_st") ≠ "time_epoch")
    (hfresh₂ : ∀ k ∈ pyKeys pkt, k ∉ fieldsObsSt)
    (hfresh₃ : ∀ f ∈ fieldsObsSt,
      f ++ "." ++ (pyReplace sn '-' '_' ++ "." ++ "obs_st") ≠ "time_epoch") :
    ∃ res : Dict,
      parseUDPPacket pkt Option.none now = .ok (res, Option.none) ∧
      res = pkt.map (fun kv =>
          (kv.1 ++ "." ++ (pyReplace sn '-' '_' ++ "." ++ "obs_st"), kv.2))
        ++ [("time_epoch", t₀)]
        ++ (fieldsObsSt.zip (t₀ :: row)).map (fun fv =>
            (fv.1 ++ "." ++ (pyReplace sn '-' '_' ++ "." ++ "obs_st"), fv.2)) ∧
      pyGet res "time_epoch" = some t₀ ∧
      res.length = pkt.length + 1 + 18 := by
  set label := pyReplace sn '-' '_' ++ "." ++ "obs_st" with hlab
  have hinj : Function.Injective (fun k : String => k ++ "." ++ label) :=
    fun a b h => suffix_label_inj h
  have hbase : pkt.foldl (fun p kv => pyInsert p (kv.1 ++ "." ++ label) kv.2) [] =
      pkt.map (fun kv => (kv.1 ++ "." ++ label, kv.2)) := by
    rw [← List.foldl_map (fun kv : String × Val => (kv.1 ++ "." ++ label, kv.2))
      (fun p kv => pyInsert p kv.1 kv.2)]
    rw [foldl_pyInsert_eq_append _ [] (by intro kv _; simp [pyKeys]) ?_]
    · simp
    · have : pyKeys (pkt.map (fun kv => (kv.1 ++ "." ++ label, kv.2))) =
          (pyKeys pkt).map (fun k => k ++ "." ++ label) := by
        simp [pyKeys, List.map_map]
      rw [this]
      exact hnd.map hinj
  have hkeysbase : pyKeys (pkt.map (fun kv => (kv.1 ++ "." ++ label, kv.2))) =
      (pyKeys pkt).map (fun k => k ++ "." ++ label) := by
    simp [pyKeys, List.map_map]
  have hte : pyInsert (pkt.map (fun kv => (kv.1 ++ "." ++ label, kv.2))) "time_epoch" t₀ =
      pkt.map (fun kv => (kv.1 ++ "." ++ label, kv.2)) ++ [("time_epoch", t₀)] := by
    refine pyInsert_not_mem t₀ ?_
    rw [hkeysbase]
    intro hmem
    obtain ⟨k, hk, hk₂⟩ := List.mem_map.mp hmem
    exact hfresh₁ k hk hk₂
  have hfields_nd : fieldsObsSt.Nodup := by decide
  have hziplen : (fieldsObsSt.zip (t₀ :: row)).length = 18 := by
    rw [List.length_zip fieldsObsSt (t₀ :: row), hlen]
    rfl
  have hzipfst : (fieldsObsSt.zip (t₀ :: row)).map Prod.fst = fieldsObsSt :=
    List.map_fst_zip _ _ (by rw [hlen]; decide)
  have hzip : zipLoop label (fieldsObsSt.zip (t₀ :: row))
      (pkt.map (fun kv => (kv.1 ++ "." ++ label, kv.2)) ++ [("time_epoch", t₀)]) =
      (pkt.map (fun kv => (kv.1 ++ "." ++ label, kv.2)) ++ [("time_epoch", t₀)]) ++
        (fieldsObsSt.zip (t₀ :: row)).map (fun fv => (fv.1 ++ "." ++ label, fv.2)) := by
    refine zipLoop_eq_append label _ _ ?_ ?_
    · intro kv hkv
      have hf : kv.1 ∈ fieldsObsSt := by
        rw [← hzipfst]
        exact List.mem_map_of_mem Prod.fst hkv
      simp only [pyKeys, List.map_append, List.mem_append, hkeysbase]
      push_neg
      constructor
      · rw [pyKeys] at hkeysbase
        rw [hkeysbase]
        intro hmem
        obtain ⟨k, hk, hk₂⟩ := List.mem_map.mp hmem
        have : kv.1 = k := suffix_label_inj hk₂.symm
        exact hfresh₂ k hk (this ▸ hf)
      · simp only [List.map_cons, List.map_nil, List.mem_singleton]
        exact hfresh₃ kv.1 hf
    · rw [pyKeys, hzipfst]
      exact (hfields_nd.map hinj)
  have hnotmem : "time_epoch" ∉ pyKeys (pkt.map (fun kv => (kv.1 ++ "." ++ label, kv.2))) := by
    rw [hkeysbase]
    intro hmem
    obtain ⟨k, hk, hk₂⟩ := List.mem_map.mp hmem
    exact hfresh₁ k hk hk₂
  refine ⟨pkt.map (fun kv => (kv.1 ++ "." ++ label, kv.2)) ++ [("time_epoch", t₀)]
      ++ (fieldsObsSt.zip (t₀ :: row)).map (fun fv => (fv.1 ++ "." ++ label, fv.2)),
    ?_, rfl, ?_, ?_⟩
  · unfold parseUDPPacket
    rw [hser, hty]
    dsimp only
    rw [if_pos (by simp)]
    rw [hobs]
    dsimp only
    rw [show fieldsFor "obs_st" = fieldsObsSt from rfl]
    rw [hbase, hte, obsZipLoop_none, hzip]
  · rw [List.append_assoc, List.singleton_append, pyGet_append_right _ hnotmem]
    simp [pyGet]
  · simp only [List.length_append, List.length_map, List.length_cons, List.length_nil,
      hziplen]

theorem claim_C6_witness :
    ∃ res : Dict,
      parseUDPPacket samplePacket Option.none 0 = .ok (res, Option.none) ∧
      res = samplePacket.map (fun kv =>
          (kv.1 ++ "." ++ (pyReplace "ST-00000512" '-' '_' ++ "." ++ "obs_st"), kv.2))
        ++ [("time_epoch", Val.num 1617299160)]
        ++ (fieldsObsSt.zip sampleRow).map (fun fv =>
            (fv.1 ++ "." ++ (pyReplace "ST-00000512" '-' '_' ++ "." ++ "obs_st"), fv.2)) ∧
      pyGet res "time_epoch" = some (Val.num 1617299160) ∧
      res.length = samplePacket.length + 1 + 18 :=
  claim_C6 samplePacket "ST-00000512" (Val.num 1617299160)
    [Val.num 0, Val.num 1, Val.num 2, Val.num 3, Val.num 4, Val.num 5, Val.num 6,
     Val.num 7, Val.num 8, Val.num 9, Val.num 10, Val.num 11, Val.num 12, Val.num 13,
     Val.num 14, Val.num 15, Val.num 16] [] 0
    (by decide) (by decide) (by decide) (by decide) (by decide) (by decide)
    (by decide) (by decide)

/-- C4: the sentinel corrections reach the routed output.  A flat record
whose lightning strike count entry equals 0 routes the paired
average-distance field as `None`, whatever distance the raw packet carried;
and a flat record whose `wind_avg` (or `wind_speed`) entry is non-null and
rounds to 0.00 at two decimals routes the wind direction field as `None`.
The routing hypotheses say the sensor map's target fields are distinct,
the field `w` is routed from exactly the corrected key, and `w` is not one
of the two keys the later stages write. -/
theorem claim_C4 :
    (∀ (pkt : Dict) (smap : List (String × List String)) (isRest : Bool)
        (interval : ℚ) (genRR : Bool) (kc kd w lbl : String) (out : Dict),
        (scanKeys pkt).count = some kc →
        (scanKeys pkt).dist = some kd →
        pyGet pkt kc = some (Val.num 0) →
        mapToWeewxPacket pkt smap isRest interval genRR = .ok out →
        (smap.map Prod.fst).Nodup →
        (w, [lbl]) ∈ smap →
        resolveLabel lbl isRest = kd →
        w ≠ "rainRate" → w ≠ "lightningPerTimestamp" →
        pyGet out w = some Val.none)
    ∧ (∀ (pkt : Dict) (smap : List (String × List String)) (isRest : Bool)
        (interval : ℚ) (genRR : Bool) (ka kdir w lbl : String) (out : Dict) (q : ℚ),
        (scanKeys pkt).avg = some ka →
        (scanKeys pkt).dir = some kdir →
        pyGet pkt ka = some (Val.num q) →
        roundHalfEven (q * 100) = 0 →
        mapToWeewxPacket pkt smap isRest interval genRR = .ok out →
        (smap.map Prod.fst).Nodup →
        (w, [lbl]) ∈ smap →
        resolveLabel lbl isRest = kdir →
        w ≠ "rainRate" → w ≠ "lightningPerTimestamp" →
        pyGet out w = some Val.none)
    ∧ (∀ (pkt : Dict) (smap : List (String × List String)) (isRest : Bool)
        (interval : ℚ) (genRR : Bool) (ks kdir w lbl : String) (out : Dict) (q : ℚ),
        (scanKeys pkt).speed = some ks →
        (scanKeys pkt).dir = some kdir →
        pyGet pkt ks = some (Val.num q) →
        roundHalfEven (q * 100) = 0 →
        mapToWeewxPacket pkt smap isRest interval genRR = .ok out →
        (smap.map Prod.fst).Nodup →
        (w, [lbl]) ∈ smap →
        resolveLabel lbl isRest = kdir →
        w ≠ "rainRate" → w ≠ "lightningPerTimestamp" →
        pyGet out w = some Val.none) := by
  refine ⟨?_, ?_, ?_⟩
  · intro pkt smap isRest interval genRR kc kd w lbl out hc hd hv hmap hnd hmem hres hw₁ hw₂
    obtain ⟨pkt₃, p₁, hcorr, hrain, hout⟩ := mapToWeewxPacket_inv hmap
    obtain ⟨pkt₂, hwc₁, hwc₂⟩ := applyCorrections_inv hcorr
    have h₁ : pyGet (strikeCorrection pkt (scanKeys pkt)) kd = some Val.none := by
      rw [strikeCorrection_sets hc hd hv]
      exact pyGet_pyInsert_self _ _ _
    have h₂ := windCorrection_get_none hwc₁ h₁
    have h₃ := windCorrection_get_none hwc₂ h₂
    have hroute : pyGet (routeLoop pkt₃ isRest smap (seedPacket pkt isRest interval)) w
        = some Val.none :=
      routeLoop_find smap _ w lbl Val.none hnd hmem (by rw [hres]; exact h₃)
    rw [hout, lightningStep_get_ne hw₂, rainRateStep_get_ne hrain hw₁, hroute]
  · intro pkt smap isRest interval genRR ka kdir w lbl out q ha hdir hv hz hmap hnd
      hmem hres hw₁ hw₂
    obtain ⟨pkt₃, p₁, hcorr, hrain, hout⟩ := mapToWeewxPacket_inv hmap
    obtain ⟨pkt₂, hwc₁, hwc₂⟩ := applyCorrections_inv hcorr
    have hspec := scanKeys_spec pkt
    have hdist_ne : ∀ kdd, (scanKeys pkt).dist = some kdd → kdd ≠ ka := by
      intro kdd hdd heq
      have hP := (hspec.2.1 kdd hdd).2
      have hPa := (hspec.2.2.1 ka ha).2.1
      rw [heq] at hP
      rw [hP] at hPa
      cases hPa
    have hka' : pyGet (strikeCorrection pkt (scanKeys pkt)) ka = some (Val.num q) := by
      rw [strikeCorrection_get_ne hdist_ne]
      exact hv
    rw [ha, hdir, windCorrection_sets hka' hz] at hwc₁
    have hpkt₂ : pkt₂ = pyInsert (strikeCorrection pkt (scanKeys pkt)) kdir Val.none :=
      (Except.ok.inj hwc₁).symm
    have h₂ : pyGet pkt₂ kdir = some Val.none := by
      rw [hpkt₂]
      exact pyGet_pyInsert_self _ _ _
    have h₃ := windCorrection_get_none hwc₂ h₂
    have hroute : pyGet (routeLoop pkt₃ isRest smap (seedPacket pkt isRest interval)) w
        = some Val.none :=
      routeLoop_find smap _ w lbl Val.none hnd hmem (by rw [hres]; exact h₃)
    rw [hout, lightningStep_get_ne hw₂, rainRateStep_get_ne hrain hw₁, hroute]
  · intro pkt smap isRest interval genRR ks kdir w lbl out q hs hdir hv hz hmap hnd
      hmem hres hw₁ hw₂
    obtain ⟨pkt₃, p₁, hcorr, hrain, hout⟩ := mapToWeewxPacket_inv hmap
    obtain ⟨pkt₂, hwc₁, hwc₂⟩ := applyCorrections_inv hcorr
    have hspec := scanKeys_spec pkt
    have hdist_ne : ∀ kdd, (scanKeys pkt).dist = some kdd → kdd ≠ ks := by
      intro kdd hdd heq
      have hP := (hspec.2.1 kdd hdd).2
      have hPs := (hspec.2.2.2.1 ks hs).2.1
      rw [heq] at hP
      rw [hP] at hPs
      cases hPs
    have hdir_ne : ∀ kdd, (scanKeys pkt).dir = some kdd → kdd ≠ ks := by
      intro kdd hdd heq
      have hP := (hspec.2.2.2.2 kdd hdd).2.2.2.1
      have hPs := (hspec.2.2.2.1 ks hs).2.2.2
      rw [heq] at hP
      rw [hP] at hPs
      cases hPs
    have hks₁ : pyGet (strikeCorrection pkt (scanKeys pkt)) ks = some (Val.num q) := by
      rw [strikeCorrection_get_ne hdist_ne]
      exact hv
    have hks₂ : pyGet pkt₂ ks = some (Val.num q) := by
      rw [windCorrection_get_ne hwc₁ hdir_ne]
      exact hks₁
    rw [hs, hdir, windCorrection_sets hks₂ hz] at hwc₂
    have hpkt₃ : pkt₃ = pyInsert pkt₂ kdir Val.none := (Except.ok.inj hwc₂).symm
    have h₃ : pyGet pkt₃ kdir = some Val.none := by
      rw [hpkt₃]
      exact pyGet_pyInsert_self _ _ _
    have hroute : pyGet (routeLoop pkt₃ isRest smap (seedPacket pkt isRest interval)) w
        = some Val.none :=
      routeLoop_find smap _ w lbl Val.none hnd hmem (by rw [hres]; exact h₃)
    rw [hout, lightningStep_get_ne hw₂, rainRateStep_get_ne hrain hw₁, hroute]

theorem claim_C4_witness :
    pyGet [("dateTime", Val.num 2000), ("usUnits", Val.num 17),
        ("lightning_distance", Val.none)] "lightning_distance" = some Val.none
    ∧ pyGet [("dateTime", Val.num 2000), ("usUnits", Val.num 17),
        ("windDir", Val.none)] "windDir" = some Val.none
    ∧ pyGet [("dateTime", Val.num 3000), ("usUnits", Val.num 17),
        ("windDir", Val.none)] "windDir" = some Val.none := by
  have hz : roundHalfEven ((0 : ℚ) * 100) = 0 := by norm_num [roundHalfEven]
  refine ⟨?_, ?_, ?_⟩
  · exact claim_C4.1 strikeZeroPacket
      [("lightning_distance", ["lightning_strike_avg_distance.ST-1.obs_st"])]
      false 1 false "lightning_strike_count.ST_1.obs_st"
      "lightning_strike_avg_distance.ST_1.obs_st" "lightning_distance"
      "lightning_strike_avg_distance.ST-1.obs_st"
      [("dateTime", Val.num 2000), ("usUnits", Val.num 17),
       ("lightning_distance", Val.none)]
      (by decide) (by decide) (by decide) (by decide) (by decide) (by decide)
      (by decide) (by decide) (by decide)
  · have hcorr : applyCorrections windAvgZeroPacket (scanKeys windAvgZeroPacket)
        = .ok (pyInsert windAvgZeroPacket "wind_direction.ST_1.obs_st" Val.none) := by
      unfold applyCorrections
      rw [show (scanKeys windAvgZeroPacket).avg = some "wind_avg.ST_1.obs_st" from rfl,
        show (scanKeys windAvgZeroPacket).dir = some "wind_direction.ST_1.obs_st" from rfl,
        show (scanKeys windAvgZeroPacket).speed = Option.none from rfl,
        show strikeCorrection windAvgZeroPacket (scanKeys windAvgZeroPacket)
          = windAvgZeroPacket from rfl]
      rw [windCorrection_sets (show pyGet windAvgZeroPacket "wind_avg.ST_1.obs_st"
          = some (Val.num 0) from rfl) hz]
      decide
    have hmap : mapToWeewxPacket windAvgZeroPacket
        [("windDir", ["wind_direction.ST-1.obs_st"])] false 1 false
        = .ok [("dateTime", Val.num 2000), ("usUnits", Val.num 17),
               ("windDir", Val.none)] := by
      unfold mapToWeewxPacket
      rw [hcorr]
      decide
    exact claim_C4.2.1 windAvgZeroPacket [("windDir", ["wind_direction.ST-1.obs_st"])]
      false 1 false "wind_avg.ST_1.obs_st" "wind_direction.ST_1.obs_st" "windDir"
      "wind_direction.ST-1.obs_st"
      [("dateTime", Val.num 2000), ("usUnits", Val.num 17), ("windDir", Val.none)] 0
      (by rfl) (by rfl) (by rfl) hz hmap (by decide) (by decide) (by decide)
      (by decide) (by decide)
  · have hstep : applyCorrections windSpeedZeroPacket (scanKeys windSpeedZeroPacket)
        = windCorrection windSpeedZeroPacket (some "wind_speed.ST_1.rapid_wind")
            (some "wind_direction.ST_1.rapid_wind") := rfl
    have hcorr : applyCorrections windSpeedZeroPacket (scanKeys windSpeedZeroPacket)
        = .ok (pyInsert windSpeedZeroPacket "wind_direction.ST_1.rapid_wind" Val.none) := by
      rw [hstep, windCorrection_sets (show pyGet windSpeedZeroPacket
        "wind_speed.ST_1.rapid_wind" = some (Val.num 0) from rfl) hz]
    have hmap : mapToWeewxPacket windSpeedZeroPacket
        [("windDir", ["wind_direction.ST-1.rapid_wind"])] false 1 false
        = .ok [("dateTime", Val.num 3000), ("usUnits", Val.num 17),
               ("windDir", Val.none)] := by
      unfold mapToWeewxPacket
      rw [hcorr]
      decide
    exact claim_C4.2.2 windSpeedZeroPacket
      [("windDir", ["wind_direction.ST-1.rapid_wind"])]
      false 1 false "wind_speed.ST_1.rapid_wind" "wind_direction.ST_1.rapid_wind"
      "windDir" "wind_direction.ST-1.rapid_wind"
      [("dateTime", Val.num 3000), ("usUnits", Val.num 17), ("windDir", Val.none)] 0
      (by rfl) (by rfl) (by rfl) hz hmap (by decide) (by decide) (by decide)
      (by decide) (by decide)

theorem claim_C10_witness : ∃ q : ℚ, Val.num 3 = Val.num q :=
  claim_C10.2
    [("time_epoch", Val.num 2000), ("rain_accumulated.ST_1.obs_st", Val.num 3)]
    [("rain", ["rain_accumulated.ST-1.obs_st"])] false 1
    [("dateTime", Val.num 2000), ("usUnits", Val.num 17), ("rain", Val.num 3),
     ("rainRate", Val.num (3 * 60))]
    (Val.num 3) (by rfl) (by rfl)

/-! ## Helper lemmas for `genLoopPackets` -/

theorem mapToWeewxPacket_dateTime {pkt : Dict} {smap : List (String × List String)}
    {genRR : Bool} {out : Dict} {v : Val}
    (hte : pyGet pkt "time_epoch" = some v)
    (hsm : ∀ p ∈ smap, p.1 ≠ "dateTime")
    (h : mapToWeewxPacket pkt smap false 1 genRR = .ok out) :
    pyGet out "dateTime" = some v := by
  obtain ⟨pkt₃, p₁, hc, hr, hout⟩ := mapToWeewxPacket_inv h
  rw [hout, lightningStep_get_ne (by decide), rainRateStep_get_ne hr (by decide),
    routeLoop_preserve smap _ "dateTime" hsm]
  unfold seedPacket
  rw [hte]
  simp [pyGet]

theorem valGtNum_ok {v : Val} {q : ℚ} {b : Bool} (h : valGtNum v q = .ok b) :
    ∃ x : ℚ, v = Val.num x ∧ b = decide (x > q) := by
  cases v with
  | num x => exact ⟨x, rfl, (Except.ok.inj h).symm⟩
  | none => exact absurd h (by simp [valGtNum])
  | str s => exact absurd h (by simp [valGtNum])
  | arr a => exact absurd h (by simp [valGtNum])

theorem genLoop_spec (smap : List (String × List String)) (genRR : Bool) (delay : ℚ)
    (hsm : ∀ p ∈ smap, p.1 ≠ "dateTime") :
    ∀ (pkts : List (Dict × ℤ)) (lastTs : ℚ) (cw : List ℚ),
      (∀ r ∈ (genLoop smap genRR delay pkts lastTs cw).1,
        (∃ t : ℚ, pyGet r "dateTime" = some (Val.num t) ∧ t > 1000 ∧ t + delay > lastTs)
        ∧ r.length > 2)
      ∧ List.Pairwise (fun a b => dtOf b + delay > dtOf a)
          (genLoop smap genRR delay pkts lastTs cw).1 := by
  intro pkts
  induction pkts with
  | nil =>
      intro lastTs cw
      exact ⟨fun r hr => absurd hr (by simp [genLoop]), by simp [genLoop]⟩
  | cons pnow rest ih =>
      intro lastTs cw
      obtain ⟨pkt, now⟩ := pnow
      rw [genLoop]
      cases hp : parseUDPPacket pkt (some cw) now with
      | error e =>
          exact ⟨fun r hr => absurd hr (by simp), by simp⟩
      | ok m2cw =>
          obtain ⟨m₂, cw₂⟩ := m2cw
          dsimp only
          cases hte : pyGet m₂ "time_epoch" with
          | none => exact ih lastTs _
          | some te =>
              dsimp only
              cases hgt : valGtNum te 1000 with
              | error e =>
                  dsimp only
                  exact ⟨fun r hr => absurd hr (by simp), by simp⟩
              | ok b =>
                  cases b with
                  | false => dsimp only; exact ih lastTs _
                  | true =>
                      dsimp only
                      cases hmap : mapToWeewxPacket m₂ smap false 1 genRR with
                      | error e =>
                          dsimp only
                          exact ⟨fun r hr => absurd hr (by simp), by simp⟩
                      | ok m₃ =>
                          dsimp only
                          obtain ⟨t, htv, hb⟩ := valGtNum_ok hgt
                          subst htv
                          dsimp only
                          have ht1000 : t > 1000 := of_decide_eq_true hb.symm
                          by_cases hlen : m₃.length > 2
                          · rw [if_pos hlen]
                            by_cases hcmp : t + delay > lastTs
                            · rw [if_pos hcmp]
                              have hdt : pyGet m₃ "dateTime" = some (Val.num t) :=
                                mapToWeewxPacket_dateTime hte hsm hmap
                              have hmono : lastTs ≤ (if t > lastTs then t else lastTs) := by
                                split <;> linarith
                              obtain ⟨ihall, ihpw⟩ :=
                                ih (if t > lastTs then t else lastTs) (cw₂.getD [])
                              have hup : t ≤ (if t > lastTs then t else lastTs) := by
                                split <;> linarith
                              constructor
                              · intro r hr
                                rcases List.mem_cons.mp hr with hr | hr
                                · subst hr
                                  exact ⟨⟨t, hdt, ht1000, hcmp⟩, hlen⟩
                                · obtain ⟨⟨t', h1, h2, h3⟩, h4⟩ := ihall r hr
                                  exact ⟨⟨t', h1, h2, by linarith⟩, h4⟩
                              · refine List.Pairwise.cons ?_ ihpw
                                intro r hr
                                obtain ⟨⟨t', h1, h2, h3⟩, _⟩ := ihall r hr
                                have hd1 : dtOf r = t' := by simp [dtOf, h1]
                                have hd2 : dtOf m₃ = t := by simp [dtOf, hdt]
                                rw [hd1, hd2]
                                linarith
                            · rw [if_neg hcmp]
                              exact ih lastTs _
                          · rw [if_neg hlen]
                            exact ih lastTs _

/-- C7: every record yielded by `genLoopPackets` carries a numeric,
`time_epoch`-derived `dateTime` greater than 1000 and more than the bare
`dateTime`/`usUnits` pair of keys, and each yielded record's `dateTime`
plus the tolerated UDP delay exceeds the `dateTime` of every previously
yielded record (equivalently, the maximum over them), so a packet delayed
beyond the tolerance relative to the last forwarded loop timestamp is
never yielded.  The hypothesis says the sensor map does not route into the
`dateTime` field itself, which holds for every real sensor map. -/
theorem claim_C7 (smap : List (String × List String)) (genRR : Bool) (delay : ℚ)
    (pkts : List (Dict × ℤ))
    (hsm : ∀ p ∈ smap, p.1 ≠ "dateTime") :
    (∀ r ∈ (genLoop smap genRR delay pkts 0 []).1,
      (∃ t : ℚ, pyGet r "dateTime" = some (Val.num t) ∧ t > 1000) ∧ r.length > 2)
    ∧ List.Pairwise (fun a b => dtOf b + delay > dtOf a)
        (genLoop smap genRR delay pkts 0 []).1 := by
  obtain ⟨h1, h2⟩ := genLoop_spec smap genRR delay hsm pkts 0 []
  refine ⟨fun r hr => ?_, h2⟩
  obtain ⟨⟨t, ha, hb, _⟩, hc⟩ := h1 r hr
  exact ⟨⟨t, ha, hb⟩, hc⟩

theorem claim_C7_witness :
    (∀ r ∈ (genLoop [("outTemp", ["air_temperature.ST-00000512.obs_st"])] true 12
        [(samplePacket, 0)] 0 []).1,
      (∃ t : ℚ, pyGet r "dateTime" = some (Val.num t) ∧ t > 1000) ∧ r.length > 2)
    ∧ List.Pairwise (fun a b => dtOf b + 12 > dtOf a)
        (genLoop [("outTemp", ["air_temperature.ST-00000512.obs_st"])] true 12
          [(samplePacket, 0)] 0 []).1 :=
  claim_C7 [("outTemp", ["air_temperature.ST-00000512.obs_st"])] true 12
    [(samplePacket, 0)] (by decide)

end Weatherflow
